import Mathlib

/-!
# The chat loop of `internal/cli/chat.go`

A shallow embedding of the read/dispatch loop of the chat client and the
properties of its input reader, error policy, command classification and
prompt discipline.

Conventions of the embedding.

* A Go `string` is a list of characters (`GoString`).  The strings of this
  program come from the line editor, which builds them from runes, so they are
  well-formed UTF-8; `len` is the byte length of the UTF-8 encoding.
* The line editor (`readline.Instance`) is an external collaborator.  Its
  observable state is the prompt that is currently set, the history switch and
  the list of prompts it has displayed so far; what the operator types is a
  script: the list of the results the successive `Readline()` calls return.
  A read on an exhausted script does not return (`blocked`).
* Standard output is the text the loop itself prints with `fmt.Printf`.
* The command handlers (`command.run`) and the constants `systemCmdPrefix`,
  `systemCmdQuit` live in other files of the package; the handlers are an
  arbitrary state transformer `run`, the constants are parameters.
* `StartChat` takes the number of loop iterations it may perform (`fuel`).
-/

namespace cli

/-- A Go string: the sequence of its characters. -/
abbrev GoString := List Char

/-- Go `len(s)`: the number of bytes of the UTF-8 encoding of `s`. -/
def len (s : GoString) : Nat :=
  (s.map Char.utf8Size).sum

namespace unicode

/-- Go `unicode.IsSpace`: the Latin-1 spaces `\t \n \v \f \r`, space, U+0085,
U+00A0, and beyond Latin-1 the code points with the `White_Space` property. -/
def IsSpace (r : Char) : Bool :=
  let n := r.toNat
  if n ≤ 0xFF then
    n == 0x09 || n == 0x0A || n == 0x0B || n == 0x0C || n == 0x0D || n == 0x20
      || n == 0x85 || n == 0xA0
  else
    n == 0x1680 || (0x2000 ≤ n && n ≤ 0x200A) || n == 0x2028 || n == 0x2029
      || n == 0x202F || n == 0x205F || n == 0x3000

end unicode

namespace strings

/-- Go `strings.HasSuffix`:
`len(s) >= len(suffix) && s[len(s)-len(suffix):] == suffix`. -/
def HasSuffix (s suffix : GoString) : Bool :=
  suffix.length ≤ s.length && s.drop (s.length - suffix.length) == suffix

/-- Go `strings.HasPrefix`:
`len(s) >= len(prefix) && s[:len(prefix)] == prefix`. -/
def HasPrefix (s pre : GoString) : Bool :=
  pre.length ≤ s.length && s.take pre.length == pre

/-- Go `strings.TrimSuffix`: `s` without the trailing `suffix`, or `s` itself
when it does not end with `suffix`. -/
def TrimSuffix (s suffix : GoString) : GoString :=
  if HasSuffix s suffix then s.take (s.length - suffix.length) else s

/-- Go `strings.TrimSpace`: `s` with all leading and trailing white space
(`unicode.IsSpace`) removed. -/
def TrimSpace (s : GoString) : GoString :=
  (s.dropWhile unicode.IsSpace).rdropWhile unicode.IsSpace

end strings

/-- A Go `error` as this program observes it: whether
`errors.Is(err, readline.ErrInterrupt)` holds, and the text `%s` prints. -/
structure GoError where
  isInterrupt : Bool
  text : GoString
deriving DecidableEq

/-- What one call of `reader.Readline()` returns: `(input, err)`. -/
structure ReadResult where
  input : GoString
  err : Option GoError
deriving DecidableEq

/-- A line read without error. -/
def ReadResult.line (s : GoString) : ReadResult := ⟨s, none⟩

/-- A failed read: the partial line and the error. -/
def ReadResult.fail (s : GoString) (e : GoError) : ReadResult := ⟨s, some e⟩

/-- ChatOpts represents Chat configuration options. -/
structure ChatOpts where
  Model : GoString
  Format : Bool
  Style : GoString
  Multiline : Bool
  Terminator : GoString
deriving DecidableEq

/-- The three prompt strings (`prompt.go`): primary, continuation, cli. -/
structure prompt where
  user : GoString
  userNext : GoString
  cli : GoString
deriving DecidableEq

/-- The observable state of the line editor, `readline.Instance`. -/
structure Instance where
  /-- the prompt currently set -/
  prompt : GoString
  /-- whether `HistoryDisable` has been called -/
  historyDisabled : Bool
  /-- the prompt displayed by each `Readline` call so far, oldest first -/
  shown : List GoString
deriving DecidableEq

/-- `reader.SetPrompt(s)`. -/
def Instance.SetPrompt (r : Instance) (s : GoString) : Instance :=
  { r with prompt := s }

/-- `reader.HistoryDisable()`. -/
def Instance.HistoryDisable (r : Instance) : Instance :=
  { r with historyDisabled := true }

/-- Chat controls the chat flow.  `σ` is the state of the remote session
(`gemini.ChatSession`). -/
structure Chat (σ : Type) where
  model : σ
  prompt : cli.prompt
  reader : Instance
  opts : ChatOpts
deriving DecidableEq

/-- The mutable world of the loop: the chat and what has been printed to
standard output. -/
structure World (σ : Type) where
  chat : Chat σ
  stdout : GoString
deriving DecidableEq

/-- `c.reader.SetPrompt(s)` on the chat of a world. -/
def World.SetPrompt {σ : Type} (w : World σ) (s : GoString) : World σ :=
  { w with chat := { w.chat with reader := w.chat.reader.SetPrompt s } }

/-- `fmt.Printf` of the text `s`. -/
def World.Printf {σ : Type} (w : World σ) (s : GoString) : World σ :=
  { w with stdout := w.stdout ++ s }

/-- The result of a read operation: it returned `val`, leaving the world `w`
and the script `rest`, or it is blocked in `Readline` on an exhausted script
with the world `w`. -/
inductive Read (σ : Type) (α : Type) where
  | ret (val : α) (w : World σ) (rest : List ReadResult)
  | blocked (w : World σ)
deriving DecidableEq

/-- `c.reader.Readline()`: displays the current prompt and returns the next
result of the script. -/
def Readline {σ : Type} (w : World σ) : List ReadResult → Read σ ReadResult
  | [] => .blocked w
  | x :: rest =>
    .ret x { w with chat := { w.chat with reader :=
      { w.chat.reader with shown := w.chat.reader.shown ++ [w.chat.reader.prompt] } } } rest

/-- The two implementors of the `command` interface. -/
inductive command where
  | systemCommand
  | geminiCommand
deriving DecidableEq

/-- `validateInput`. -/
def validateInput (input : GoString) : GoString × Bool :=
  let input := strings.TrimSpace input
  (input, input != [])

/-- `Chat.handleReadError`. -/
def handleReadError {σ : Type} (systemCmdQuit : GoString) (w : World σ) (inputLen : Nat)
    (err : GoError) : (GoString × Bool) × World σ :=
  if err.isInterrupt then
    if inputLen == 0 then
      ((systemCmdQuit, true), w)
    else
      (([], false), w)
  else
    (([], false), w.Printf (w.chat.prompt.cli ++ err.text ++ ['\n']))

/-- `Chat.readLine`. -/
def readLine {σ : Type} (systemCmdQuit : GoString) (w : World σ)
    (script : List ReadResult) : Read σ (GoString × Bool) :=
  match Readline w script with
  | .blocked w => .blocked w
  | .ret ⟨input, some err⟩ w rest =>
    let (r, w) := handleReadError systemCmdQuit w (len input) err
    .ret r w rest
  | .ret ⟨input, none⟩ w rest => .ret (validateInput input) w rest

/-- The `for` loop of `Chat.readMultiLine`, entered with the content of the
`strings.Builder` accumulated so far. -/
def readMultiLineLoop {σ : Type} (systemCmdQuit : GoString) (term : GoString) :
    GoString → World σ → List ReadResult → Read σ (GoString × Bool)
  | _, w, [] => .blocked w
  | builder, w, x :: script =>
    match Readline w (x :: script) with
    | .blocked w => .blocked w
    | .ret ⟨input, some err⟩ w rest =>
      let w := w.SetPrompt w.chat.prompt.user
      let (r, w) := handleReadError systemCmdQuit w (len builder + len input) err
      .ret r w rest
    | .ret ⟨input, none⟩ w _ =>
      -- what `Readline` leaves of the script is `script`
      if strings.HasSuffix input term then
        let builder := builder ++ strings.TrimSuffix input term
        let w := w.SetPrompt w.chat.prompt.user
        .ret (validateInput builder) w script
      else
        let w := if len builder == 0 then w.SetPrompt w.chat.prompt.userNext else w
        readMultiLineLoop systemCmdQuit term (builder ++ (input ++ ['\n'])) w script

/-- `Chat.readMultiLine`. -/
def readMultiLine {σ : Type} (systemCmdQuit : GoString) (w : World σ)
    (script : List ReadResult) : Read σ (GoString × Bool) :=
  readMultiLineLoop systemCmdQuit w.chat.opts.Terminator [] w script

/-- `Chat.read`. -/
def read {σ : Type} (systemCmdQuit : GoString) (w : World σ)
    (script : List ReadResult) : Read σ (GoString × Bool) :=
  if w.chat.opts.Multiline then
    readMultiLine systemCmdQuit w script
  else
    readLine systemCmdQuit w script

/-- `Chat.parseCommand`. -/
def parseCommand (systemCmdPrefix : GoString) (message : GoString) : command :=
  if strings.HasPrefix message systemCmdPrefix then
    command.systemCommand
  else
    command.geminiCommand

/-- What the chat loop does, in order: a `read` that returned, and the `run` of
a dispatched command with the termination signal it returned. -/
inductive Event where
  | read (message : GoString) (ok : Bool)
  | run (cmd : command) (message : GoString) (quit : Bool)
deriving DecidableEq

/-- How an execution of the loop stands: `StartChat` returned; it is blocked
in a read on an exhausted script; or it is at the top of the loop, still running,
the allowed number of iterations done. -/
inductive Status where
  | returned
  | blocked
  | running
deriving DecidableEq

/-- An execution of `StartChat`: its status, the events in order, the world
and the script left. -/
structure Run (σ : Type) where
  status : Status
  log : List Event
  world : World σ
  rest : List ReadResult
deriving DecidableEq

/-- The execution `r` preceded by the events `evs`. -/
def Run.after {σ : Type} (evs : List Event) (r : Run σ) : Run σ :=
  { r with log := evs ++ r.log }

/-- `Chat.StartChat`, for at most `fuel` iterations of its loop.  `run` is
`command.run`: given the command, the message and the world, the termination
signal and the new world. -/
def StartChat {σ : Type} (systemCmdPrefix systemCmdQuit : GoString)
    (run : command → GoString → World σ → Bool × World σ) :
    Nat → World σ → List ReadResult → Run σ
  | 0, w, script => ⟨.running, [], w, script⟩
  | fuel + 1, w, script =>
    match read systemCmdQuit w script with
    | .blocked w => ⟨.blocked, [], w, []⟩
    | .ret (message, ok) w rest =>
      if !ok then
        (StartChat systemCmdPrefix systemCmdQuit run fuel w rest).after [.read message ok]
      else
        let command := parseCommand systemCmdPrefix message
        let (quit, w) := run command message w
        if quit then
          ⟨.returned, [.read message ok, .run command message quit], w, rest⟩
        else
          (StartChat systemCmdPrefix systemCmdQuit run fuel w rest).after
            [.read message ok, .run command message quit]

/-- `NewChat`.  `NewEx` is the result of `readline.NewEx(&readline.Config{})`,
`newPrompt` the constructor of the prompt set (`prompt.go`). -/
def NewChat {σ : Type} (NewEx : Except GoError Instance) (newPrompt : GoString → prompt)
    (user : GoString) (model : σ) (opts : ChatOpts) : Except GoError (Chat σ) :=
  match NewEx with
  | .error err => .error err
  | .ok reader =>
    let prompt := newPrompt user
    let reader := reader.SetPrompt prompt.user
    let reader := if opts.Multiline then reader.HistoryDisable else reader
    .ok { model := model, prompt := prompt, reader := reader, opts := opts }

/-- The text a multi-line entry accumulates from its content lines: each line
followed by a newline. -/
def contentText (lines : List GoString) : GoString :=
  (lines.map (fun l => l ++ ['\n'])).flatten

/-- The world after the line editor has displayed the prompts `ps`. -/
def World.displayed {σ : Type} (w : World σ) (ps : List GoString) : World σ :=
  { w with chat := { w.chat with reader :=
    { w.chat.reader with shown := w.chat.reader.shown ++ ps } } }

/-- The world in the middle of a multi-line entry that began in `w`, after `n`
content lines have been accepted: the first read displayed the prompt of `w`,
the later ones `userNext`, which is the prompt now set. -/
def World.midEntry {σ : Type} (w : World σ) : Nat → World σ
  | 0 => w
  | n + 1 =>
    (w.displayed (w.chat.reader.prompt :: List.replicate n w.chat.prompt.userNext)).SetPrompt
      w.chat.prompt.userNext

/-! ## Concrete worlds -/

/-- A prompt set for the examples. -/
def examplePrompt : prompt :=
  ⟨"me> ".toList, "... ".toList, "cli> ".toList⟩

/-- A world in single-line mode, the primary prompt set, nothing printed. -/
def singleLineWorld : World Unit :=
  ⟨⟨(), examplePrompt, ⟨examplePrompt.user, false, []⟩,
    ⟨"gemini-pro".toList, true, "auto".toList, false, "$".toList⟩⟩, []⟩

/-- A world in multi-line mode with the terminator `;;`, the primary prompt set,
history disabled, nothing printed. -/
def multiLineWorld : World Unit :=
  ⟨⟨(), examplePrompt, ⟨examplePrompt.user, true, []⟩,
    ⟨"gemini-pro".toList, true, "auto".toList, true, ";;".toList⟩⟩, []⟩

/-- A command handler for the examples: the system command `!q` asks the loop to
stop, every other command lets it continue; the world is left as it is. -/
def exampleRun (cmd : command) (message : GoString) (w : World Unit) : Bool × World Unit :=
  (cmd == command.systemCommand && message == "!q".toList, w)

/-- A failed read with nothing typed and the operator interrupt as error. -/
def interruptAtEmpty : ReadResult :=
  ReadResult.fail [] ⟨true, "Interrupt".toList⟩

/-- A failed read at the end of the input: the error `EOF`, no interrupt. -/
def endOfInput : ReadResult :=
  ReadResult.fail [] ⟨false, "EOF".toList⟩

/-- The shape the loop gives to its events (specification, 4.4): every iteration
is a read, followed by nothing when the read is not usable and by the run of one
command on the message read when it is; after a run that returns true nothing
follows. -/
def loopShape : List Event → Bool
  | [] => true
  | .read _ false :: evs => loopShape evs
  | .read m true :: .run _ m' quit :: evs =>
    m' == m && (if quit then evs.isEmpty else loopShape evs)
  | _ => false

/-- The pairs a read can return: the quit sentinel as usable text, the empty
unusable text, or a validated input. -/
def ReadValue (q : GoString) (v : GoString × Bool) : Prop :=
  v = (q, true) ∨ v = ([], false) ∨ ∃ s, v = validateInput s

/-- The world a read operation leaves, returned or blocked. -/
def Read.world {σ α : Type} : Read σ α → World σ
  | .ret _ w _ => w
  | .blocked w => w

/-- Modelled from the spec: the command handlers behind `command.run`, which are
in other files of the package.  Specification 4.3 and 7: the system command has a
quit subcommand whose run returns true, and the interrupt at an empty buffer is
promoted to that quit command; so the run of a system command on the canonical
quit text `systemCmdQuit` returns true, in every world. -/
def quitReturnsTrue {σ : Type} (systemCmdQuit : GoString)
    (run : command → GoString → World σ → Bool × World σ) : Prop :=
  ∀ w : World σ, (run command.systemCommand systemCmdQuit w).1 = true

/-- The world at the end of a multi-line entry that began in `w`, ended by the
read that followed `n` accepted content lines (a terminator line or a failed read):
that read has displayed its prompt and the primary prompt is set again. -/
def World.afterEntry {σ : Type} (w : World σ) (n : Nat) : World σ :=
  ((w.midEntry n).displayed [(w.midEntry n).chat.reader.prompt]).SetPrompt
    (w.midEntry n).chat.prompt.user

/-- A world in multi-line mode with the empty terminator. -/
def emptyTerminatorWorld : World Unit :=
  ⟨⟨(), examplePrompt, ⟨examplePrompt.user, true, []⟩,
    ⟨"gemini-pro".toList, true, "auto".toList, true, []⟩⟩, []⟩

/-- The world without the record of the prompts displayed.  The record is kept to
state what the operator sees; it is no state of the program. -/
def World.erase {σ : Type} (w : World σ) : World σ :=
  { w with chat := { w.chat with reader := { w.chat.reader with shown := [] } } }

/-- The result of a read, the record of the prompts displayed left out. -/
def Read.erase {σ α : Type} : Read σ α → Read σ α
  | .ret v w rest => .ret v w.erase rest
  | .blocked w => .blocked w.erase

/-- An execution of the loop, the record of the prompts displayed left out. -/
def Run.erase {σ : Type} (r : Run σ) : Run σ :=
  { r with world := r.world.erase }

/-- Command handlers that do not depend on the record of the prompts displayed:
on worlds that differ in that record only they return the same signal and worlds
that differ in that record only. -/
def ignoresDisplay {σ : Type} (run : command → GoString → World σ → Bool × World σ) : Prop :=
  ∀ (cmd : command) (m : GoString) (w1 w2 : World σ), w1.erase = w2.erase →
    (run cmd m w1).1 = (run cmd m w2).1 ∧ (run cmd m w1).2.erase = (run cmd m w2).2.erase

/-- The commands the loop has dispatched, with their messages, in order. -/
def dispatched : List Event → List (command × GoString)
  | [] => []
  | .read _ _ :: evs => dispatched evs
  | .run cmd m _ :: evs => (cmd, m) :: dispatched evs

/-- The iterations of the chat loop as the specification describes them (4.4):
`Iterations p q run n w script evs w' script'` says that `n` iterations, begun at
the top of the loop in the world `w` with the script `script`, none of them ending
the loop, give the events `evs` and lead to the top of the loop in the world `w'`
with the script `script'`.  An iteration acquires input with `read`; when the input
is not usable it dispatches nothing; when it is, it classifies the message and
runs that one command on it, and goes on when the run returns false. -/
inductive Iterations {σ : Type} (p q : GoString)
    (run : command → GoString → World σ → Bool × World σ) :
    Nat → World σ → List ReadResult → List Event → World σ → List ReadResult → Prop where
  | done (w : World σ) (script : List ReadResult) :
    Iterations p q run 0 w script [] w script
  | skip {n : Nat} {w w1 w' : World σ} {script rest script' : List ReadResult}
      {m : GoString} {evs : List Event} :
    read q w script = .ret (m, false) w1 rest →
    Iterations p q run n w1 rest evs w' script' →
    Iterations p q run (n + 1) w script (.read m false :: evs) w' script'
  | dispatch {n : Nat} {w w1 w2 w' : World σ} {script rest script' : List ReadResult}
      {m : GoString} {evs : List Event} :
    read q w script = .ret (m, true) w1 rest →
    run (parseCommand p m) m w1 = (false, w2) →
    Iterations p q run n w2 rest evs w' script' →
    Iterations p q run (n + 1) w script
      (.read m true :: .run (parseCommand p m) m false :: evs) w' script'

/-! ## Strings -/

theorem len_eq_zero_iff (s : GoString) : len s = 0 ↔ s = [] := by
  cases s with
  | nil => simp [len]
  | cons c s =>
    have := Char.utf8Size_pos c
    simp [len]
    omega

theorem len_append (a b : GoString) : len (a ++ b) = len a + len b := by
  simp [len]

theorem HasSuffix_iff (s suffix : GoString) :
    strings.HasSuffix s suffix = true ↔ suffix <:+ s := by
  unfold strings.HasSuffix
  constructor
  · intro h
    simp only [Bool.and_eq_true, decide_eq_true_eq, beq_iff_eq] at h
    have ht := List.take_append_drop (s.length - suffix.length) s
    rw [h.2] at ht
    exact ⟨_, ht⟩
  · intro h
    have hl := h.length_le
    simp only [Bool.and_eq_true, decide_eq_true_eq, beq_iff_eq]
    exact ⟨hl, (List.suffix_iff_eq_drop.mp h).symm⟩

theorem HasPrefix_iff (s pre : GoString) :
    strings.HasPrefix s pre = true ↔ pre <+: s := by
  unfold strings.HasPrefix
  constructor
  · intro h
    simp only [Bool.and_eq_true, decide_eq_true_eq, beq_iff_eq] at h
    have ht := List.take_append_drop pre.length s
    rw [h.2] at ht
    exact ⟨_, ht⟩
  · intro h
    have hl := h.length_le
    simp only [Bool.and_eq_true, decide_eq_true_eq, beq_iff_eq]
    exact ⟨hl, (List.prefix_iff_eq_take.mp h).symm⟩

theorem dropWhile_initial {p : Char → Bool} {d r : List Char}
    (hd : ∀ h : d ≠ [], p (d.head h) = false) (hr : r <+: d) : r.dropWhile p = r := by
  obtain ⟨u, rfl⟩ := hr
  cases r with
  | nil => rfl
  | cons a v =>
    have ha := hd (by simp)
    simp only [List.cons_append, List.head_cons] at ha
    simp [List.dropWhile_cons, ha]

theorem TrimSpace_idem (s : GoString) :
    strings.TrimSpace (strings.TrimSpace s) = strings.TrimSpace s := by
  unfold strings.TrimSpace
  rw [dropWhile_initial (fun h => List.head_dropWhile_not unicode.IsSpace s h)
    (List.rdropWhile_prefix unicode.IsSpace _), List.rdropWhile_idempotent]

theorem TrimSuffix_append (s suffix : GoString) (h : strings.HasSuffix s suffix = true) :
    strings.TrimSuffix s suffix ++ suffix = s := by
  have hs := h
  unfold strings.HasSuffix at hs
  simp only [Bool.and_eq_true, decide_eq_true_eq, beq_iff_eq] at hs
  have ht := List.take_append_drop (s.length - suffix.length) s
  rw [hs.2] at ht
  simp only [strings.TrimSuffix, h, if_true]
  exact ht

theorem contentText_cons (l : GoString) (ls : List GoString) :
    contentText (l :: ls) = (l ++ ['\n']) ++ contentText ls := by
  simp [contentText]

theorem contentText_eq_nil (lines : List GoString) : contentText lines = [] ↔ lines = [] := by
  cases lines with
  | nil => simp [contentText]
  | cons l ls => simp [contentText]

/-! ## The multi-line reader, one read at a time -/

section reader

variable {σ : Type}

theorem Readline_cons (w : World σ) (x : ReadResult) (rest : List ReadResult) :
    Readline w (x :: rest) = .ret x (w.displayed [w.chat.reader.prompt]) rest := rfl

theorem displayed_nil (w : World σ) : w.displayed [] = w := by
  simp [World.displayed]

theorem displayed_displayed (w : World σ) (ps qs : List GoString) :
    (w.displayed ps).displayed qs = w.displayed (ps ++ qs) := by
  simp [World.displayed]

theorem loop_content (q t b : GoString) (w : World σ) (l : GoString)
    (script : List ReadResult) (h : strings.HasSuffix l t = false) :
    readMultiLineLoop q t b w (ReadResult.line l :: script) =
      readMultiLineLoop q t (b ++ (l ++ ['\n']))
        (if len b == 0 then
          (w.displayed [w.chat.reader.prompt]).SetPrompt w.chat.prompt.userNext
         else w.displayed [w.chat.reader.prompt]) script := by
  rw [readMultiLineLoop]
  simp only [Readline_cons, ReadResult.line, h]
  rfl

theorem loop_terminator (q t b : GoString) (w : World σ) (l : GoString)
    (script : List ReadResult) (h : strings.HasSuffix l t = true) :
    readMultiLineLoop q t b w (ReadResult.line l :: script) =
      .ret (validateInput (b ++ strings.TrimSuffix l t))
        ((w.displayed [w.chat.reader.prompt]).SetPrompt w.chat.prompt.user) script := by
  rw [readMultiLineLoop]
  simp only [Readline_cons, ReadResult.line, h]
  rfl

theorem loop_fail (q t b : GoString) (w : World σ) (p : GoString) (e : GoError)
    (script : List ReadResult) :
    readMultiLineLoop q t b w (ReadResult.fail p e :: script) =
      .ret
        (handleReadError q ((w.displayed [w.chat.reader.prompt]).SetPrompt w.chat.prompt.user)
          (len b + len p) e).1
        (handleReadError q ((w.displayed [w.chat.reader.prompt]).SetPrompt w.chat.prompt.user)
          (len b + len p) e).2 script := by
  rw [readMultiLineLoop]
  simp only [Readline_cons, ReadResult.fail]
  rfl

theorem loop_lines_later (q t : GoString) (lines : List GoString)
    (h : ∀ l ∈ lines, strings.HasSuffix l t = false) (b : GoString) (hb : b ≠ [])
    (w : World σ) (more : List ReadResult) :
    readMultiLineLoop q t b w (lines.map ReadResult.line ++ more) =
      readMultiLineLoop q t (b ++ contentText lines)
        (w.displayed (List.replicate lines.length w.chat.reader.prompt)) more := by
  induction lines generalizing b w with
  | nil => simp [contentText, displayed_nil]
  | cons l ls ih =>
    have hl : strings.HasSuffix l t = false := h l (by simp)
    have hls : ∀ x ∈ ls, strings.HasSuffix x t = false := fun x hx => h x (by simp [hx])
    have hb0 : (len b == 0) = false := by
      simp [len_eq_zero_iff, hb]
    rw [List.map_cons, List.cons_append, loop_content q t b w l _ hl, hb0]
    simp only [Bool.false_eq_true, if_false]
    rw [ih hls (b ++ (l ++ ['\n'])) (by simp), displayed_displayed, contentText_cons]
    simp [World.displayed, List.replicate_succ]

theorem loop_lines (q t : GoString) (lines : List GoString)
    (h : ∀ l ∈ lines, strings.HasSuffix l t = false) (w : World σ)
    (more : List ReadResult) :
    readMultiLineLoop q t [] w (lines.map ReadResult.line ++ more) =
      readMultiLineLoop q t (contentText lines) (w.midEntry lines.length) more := by
  cases lines with
  | nil => simp [contentText, World.midEntry]
  | cons l ls =>
    have hl : strings.HasSuffix l t = false := h l (by simp)
    have hls : ∀ x ∈ ls, strings.HasSuffix x t = false := fun x hx => h x (by simp [hx])
    rw [List.map_cons, List.cons_append, loop_content q t [] w l _ hl]
    have h0 : (len ([] : GoString) == 0) = true := by simp [len]
    rw [h0]
    simp only [if_true]
    rw [loop_lines_later q t ls hls _ (by simp), contentText_cons]
    simp [World.midEntry, World.displayed, World.SetPrompt, Instance.SetPrompt]

theorem midEntry_shown_length (w : World σ) (n : Nat) :
    (w.midEntry n).chat.reader.shown.length = w.chat.reader.shown.length + n := by
  cases n with
  | zero => rfl
  | succ n => simp [World.midEntry, World.displayed, World.SetPrompt, Instance.SetPrompt]

end reader

theorem handleReadError_interrupt {σ : Type} (q : GoString) (w : World σ) (n : Nat)
    (e : GoError) (he : e.isInterrupt = true) :
    handleReadError q w n e = ((if n = 0 then (q, true) else ([], false)), w) := by
  unfold handleReadError
  cases n <;> simp [he]

theorem handleReadError_other {σ : Type} (q : GoString) (w : World σ) (n : Nat)
    (e : GoError) (he : e.isInterrupt = false) :
    handleReadError q w n e =
      (([], false), w.Printf (w.chat.prompt.cli ++ e.text ++ ['\n'])) := by
  simp [handleReadError, he]

/-! ## The values a read returns -/

section loop

variable {σ : Type}

theorem ReadResult.line_or_fail (x : ReadResult) :
    (∃ l, x = ReadResult.line l) ∨ (∃ typed e, x = ReadResult.fail typed e) := by
  obtain ⟨input, err⟩ := x
  cases err with
  | none => exact Or.inl ⟨input, rfl⟩
  | some e => exact Or.inr ⟨input, e, rfl⟩

theorem readLine_nil (q : GoString) (w : World σ) : readLine q w [] = .blocked w := rfl

theorem readLine_line (q : GoString) (w : World σ) (l : GoString) (rest : List ReadResult) :
    readLine q w (ReadResult.line l :: rest) =
      .ret (validateInput l) (w.displayed [w.chat.reader.prompt]) rest := rfl

theorem readLine_fail (q : GoString) (w : World σ) (typed : GoString) (e : GoError)
    (rest : List ReadResult) :
    readLine q w (ReadResult.fail typed e :: rest) =
      .ret (handleReadError q (w.displayed [w.chat.reader.prompt]) (len typed) e).1
        (handleReadError q (w.displayed [w.chat.reader.prompt]) (len typed) e).2 rest := rfl

theorem handleReadError_value (q : GoString) (w : World σ) (n : Nat) (e : GoError) :
    ReadValue q (handleReadError q w n e).1 := by
  cases he : e.isInterrupt with
  | true =>
    rw [handleReadError_interrupt q w n e he]
    by_cases hn : n = 0
    · simp [ReadValue, hn]
    · simp [ReadValue, hn]
  | false =>
    rw [handleReadError_other q w n e he]
    simp [ReadValue]

theorem readLine_value (q : GoString) (w w' : World σ) (script rest : List ReadResult)
    (v : GoString × Bool) (h : readLine q w script = .ret v w' rest) : ReadValue q v := by
  cases script with
  | nil => simp [readLine_nil] at h
  | cons x script =>
    rcases ReadResult.line_or_fail x with ⟨l, rfl⟩ | ⟨typed, e, rfl⟩
    · rw [readLine_line] at h
      injection h with h1 _ _
      exact Or.inr (Or.inr ⟨l, h1.symm⟩)
    · rw [readLine_fail] at h
      injection h with h1 _ _
      rw [← h1]
      exact handleReadError_value _ _ _ _

theorem loop_value (q t : GoString) (script : List ReadResult) :
    ∀ (b : GoString) (w w' : World σ) (rest : List ReadResult) (v : GoString × Bool),
      readMultiLineLoop q t b w script = .ret v w' rest → ReadValue q v := by
  induction script with
  | nil =>
    intro b w w' rest v h
    simp [readMultiLineLoop] at h
  | cons x script ih =>
    intro b w w' rest v h
    rcases ReadResult.line_or_fail x with ⟨l, rfl⟩ | ⟨typed, e, rfl⟩
    · cases hs : strings.HasSuffix l t with
      | true =>
        rw [loop_terminator q t b w l script hs] at h
        injection h with h1 _ _
        exact Or.inr (Or.inr ⟨_, h1.symm⟩)
      | false =>
        rw [loop_content q t b w l script hs] at h
        exact ih _ _ _ _ _ h
    · rw [loop_fail] at h
      injection h with h1 _ _
      rw [← h1]
      exact handleReadError_value _ _ _ _

theorem read_value (q : GoString) (w w' : World σ) (script rest : List ReadResult)
    (v : GoString × Bool) (h : read q w script = .ret v w' rest) : ReadValue q v := by
  unfold read at h
  split at h
  · exact loop_value q _ script _ _ _ _ _ h
  · exact readLine_value q w w' script rest v h

theorem ReadValue_usable (q : GoString) (hq : strings.TrimSpace q = q ∧ q ≠ [])
    (m : GoString) (h : ReadValue q (m, true)) : strings.TrimSpace m = m ∧ m ≠ [] := by
  rcases h with h | h | ⟨s, h⟩
  · injection h with h1 _
    rw [h1]
    exact hq
  · injection h with _ h2
    exact absurd h2 (by decide)
  · unfold validateInput at h
    injection h with h1 h2
    rw [h1]
    refine ⟨TrimSpace_idem s, ?_⟩
    intro h0
    rw [h0] at h2
    exact absurd h2 (by decide)

/-! ## The loop, one iteration at a time -/

theorem StartChat_blocked (p q : GoString) (run : command → GoString → World σ → Bool × World σ)
    (fuel : Nat) (w w' : World σ) (script : List ReadResult)
    (h : read q w script = .blocked w') :
    StartChat p q run (fuel + 1) w script = ⟨.blocked, [], w', []⟩ := by
  rw [StartChat, h]

theorem StartChat_skip (p q : GoString) (run : command → GoString → World σ → Bool × World σ)
    (fuel : Nat) (w w' : World σ) (script rest : List ReadResult) (m : GoString)
    (h : read q w script = .ret (m, false) w' rest) :
    StartChat p q run (fuel + 1) w script =
      (StartChat p q run fuel w' rest).after [.read m false] := by
  rw [StartChat, h]
  rfl

theorem StartChat_quit (p q : GoString) (run : command → GoString → World σ → Bool × World σ)
    (fuel : Nat) (w w' : World σ) (script rest : List ReadResult) (m : GoString)
    (h : read q w script = .ret (m, true) w' rest)
    (hrun : (run (parseCommand p m) m w').1 = true) :
    StartChat p q run (fuel + 1) w script =
      ⟨.returned, [.read m true, .run (parseCommand p m) m true],
        (run (parseCommand p m) m w').2, rest⟩ := by
  rw [StartChat, h]
  simp [hrun]

theorem StartChat_continue (p q : GoString)
    (run : command → GoString → World σ → Bool × World σ)
    (fuel : Nat) (w w' : World σ) (script rest : List ReadResult) (m : GoString)
    (h : read q w script = .ret (m, true) w' rest)
    (hrun : (run (parseCommand p m) m w').1 = false) :
    StartChat p q run (fuel + 1) w script =
      (StartChat p q run fuel (run (parseCommand p m) m w').2 rest).after
        [.read m true, .run (parseCommand p m) m false] := by
  rw [StartChat, h]
  simp [hrun]

/-- Every dispatched command was classified by `parseCommand` on a message that a
read returned as usable. -/
theorem StartChat_run_mem (p q : GoString)
    (run : command → GoString → World σ → Bool × World σ) (fuel : Nat) :
    ∀ (w : World σ) (script : List ReadResult) (cmd : command) (m : GoString) (quit : Bool),
      Event.run cmd m quit ∈ (StartChat p q run fuel w script).log →
        cmd = parseCommand p m ∧ ReadValue q (m, true) := by
  induction fuel with
  | zero =>
    intro w script cmd m quit h
    simp [StartChat] at h
  | succ fuel ih =>
    intro w script cmd m quit h
    cases hr : read q w script with
    | blocked w' =>
      rw [StartChat_blocked p q run fuel w w' script hr] at h
      simp at h
    | ret v w' rest =>
      obtain ⟨m0, ok⟩ := v
      cases ok with
      | false =>
        rw [StartChat_skip p q run fuel w w' script rest m0 hr] at h
        simp only [Run.after, List.singleton_append, List.mem_cons] at h
        rcases h with h | h
        · cases h
        · exact ih _ _ _ _ _ h
      | true =>
        have hv := read_value q w w' script rest _ hr
        cases hq : (run (parseCommand p m0) m0 w').1 with
        | true =>
          rw [StartChat_quit p q run fuel w w' script rest m0 hr hq] at h
          simp only [List.mem_cons, List.mem_singleton, Event.run.injEq] at h
          rcases h with h | h | h
          · cases h
          · obtain ⟨rfl, rfl, _⟩ := h
            exact ⟨rfl, hv⟩
          · cases h
        | false =>
          rw [StartChat_continue p q run fuel w w' script rest m0 hr hq] at h
          simp only [Run.after, List.cons_append, List.nil_append, List.mem_cons,
            Event.run.injEq] at h
          rcases h with h | h | h
          · cases h
          · obtain ⟨rfl, rfl, _⟩ := h
            exact ⟨rfl, hv⟩
          · exact ih _ _ _ _ _ h

theorem loopShape_skip (m : GoString) (evs : List Event) :
    loopShape (.read m false :: evs) = loopShape evs := by
  simp [loopShape]

theorem loopShape_dispatch (cmd : command) (m : GoString) (quit : Bool) (evs : List Event) :
    loopShape (.read m true :: .run cmd m quit :: evs) =
      (if quit then evs.isEmpty else loopShape evs) := by
  simp [loopShape]

theorem loop_rest_length (q t : GoString) (script : List ReadResult) :
    ∀ (b : GoString) (w w' : World σ) (rest : List ReadResult) (v : GoString × Bool),
      readMultiLineLoop q t b w script = .ret v w' rest → rest.length < script.length := by
  induction script with
  | nil =>
    intro b w w' rest v h
    simp [readMultiLineLoop] at h
  | cons x script ih =>
    intro b w w' rest v h
    rcases ReadResult.line_or_fail x with ⟨l, rfl⟩ | ⟨typed, e, rfl⟩
    · cases hs : strings.HasSuffix l t with
      | true =>
        rw [loop_terminator q t b w l script hs] at h
        injection h with _ _ h3
        rw [← h3]
        exact Nat.lt_succ_self _
      | false =>
        rw [loop_content q t b w l script hs] at h
        exact Nat.lt_succ_of_lt (ih _ _ _ _ _ h)
    · rw [loop_fail] at h
      injection h with _ _ h3
      rw [← h3]
      exact Nat.lt_succ_self _

/-- A read that returns has consumed at least one result of the script. -/
theorem read_rest_length (q : GoString) (w w' : World σ) (script rest : List ReadResult)
    (v : GoString × Bool) (h : read q w script = .ret v w' rest) :
    rest.length < script.length := by
  unfold read at h
  split at h
  · exact loop_rest_length q _ script _ _ _ _ _ h
  · cases script with
    | nil => simp [readLine_nil] at h
    | cons x script =>
      rcases ReadResult.line_or_fail x with ⟨l, rfl⟩ | ⟨typed, e, rfl⟩
      · rw [readLine_line] at h
        injection h with _ _ h3
        rw [← h3]
        exact Nat.lt_succ_self _
      · rw [readLine_fail] at h
        injection h with _ _ h3
        rw [← h3]
        exact Nat.lt_succ_self _

/-- More iterations than the script has results are never needed: the loop has
returned or waits for the operator. -/
theorem StartChat_enough_fuel (p q : GoString)
    (run : command → GoString → World σ → Bool × World σ) (fuel : Nat) :
    ∀ (w : World σ) (script : List ReadResult), script.length < fuel →
      (StartChat p q run fuel w script).status ≠ Status.running := by
  induction fuel with
  | zero =>
    intro w script h
    exact absurd h (Nat.not_lt_zero _)
  | succ fuel ih =>
    intro w script h
    cases hr : read q w script with
    | blocked w' =>
      rw [StartChat_blocked p q run fuel w w' script hr]
      simp
    | ret v w' rest =>
      obtain ⟨m0, ok⟩ := v
      have hlt : rest.length < fuel :=
        Nat.lt_of_lt_of_le (read_rest_length q w w' script rest _ hr) (Nat.lt_succ_iff.mp h)
      cases ok with
      | false =>
        rw [StartChat_skip p q run fuel w w' script rest m0 hr]
        exact ih w' rest hlt
      | true =>
        cases hq : (run (parseCommand p m0) m0 w').1 with
        | true =>
          rw [StartChat_quit p q run fuel w w' script rest m0 hr hq]
          simp
        | false =>
          rw [StartChat_continue p q run fuel w w' script rest m0 hr hq]
          exact ih _ rest hlt

theorem handleReadError_chat (q : GoString) (w : World σ) (n : Nat) (e : GoError) :
    (handleReadError q w n e).2.chat = w.chat := by
  cases he : e.isInterrupt with
  | true => rw [handleReadError_interrupt q w n e he]
  | false => rw [handleReadError_other q w n e he]; rfl

theorem read_nil (q : GoString) (w : World σ) : read q w [] = .blocked w := by
  unfold read
  split <;> rfl

/-- A read that fails with an error other than the interrupt returns `("", false)`
after printing the error; the prompt set is the one of before. -/
theorem read_fail_other (q : GoString) (w : World σ) (typed : GoString) (e : GoError)
    (he : e.isInterrupt = false) (rest : List ReadResult) :
    ∃ w' : World σ, read q w (ReadResult.fail typed e :: rest) = .ret ([], false) w' rest
      ∧ w'.chat.prompt = w.chat.prompt
      ∧ w'.stdout = w.stdout ++ (w.chat.prompt.cli ++ e.text ++ ['\n']) := by
  unfold read
  split
  · refine ⟨((w.displayed [w.chat.reader.prompt]).SetPrompt w.chat.prompt.user).Printf
      (w.chat.prompt.cli ++ e.text ++ ['\n']), ?_, rfl, rfl⟩
    rw [readMultiLine, loop_fail, handleReadError_other q _ _ e he]
    rfl
  · refine ⟨(w.displayed [w.chat.reader.prompt]).Printf
      (w.chat.prompt.cli ++ e.text ++ ['\n']), ?_, rfl, rfl⟩
    rw [readLine_fail, handleReadError_other q _ _ e he]
    rfl

/-- With a reader that fails for good the loop never returns: every iteration
prints the error and goes on to the next read. -/
theorem StartChat_failing_reader (p q : GoString)
    (run : command → GoString → World σ → Bool × World σ) (typed : GoString) (e : GoError)
    (he : e.isInterrupt = false) (fuel : Nat) :
    ∀ (n : Nat) (w : World σ),
      (StartChat p q run fuel w (List.replicate n (ReadResult.fail typed e))).status
          ≠ Status.returned
      ∧ (StartChat p q run fuel w (List.replicate n (ReadResult.fail typed e))).log
          = List.replicate (min fuel n) (Event.read [] false)
      ∧ (StartChat p q run fuel w (List.replicate n (ReadResult.fail typed e))).world.stdout
          = w.stdout
            ++ (List.replicate (min fuel n) (w.chat.prompt.cli ++ e.text ++ ['\n'])).flatten := by
  induction fuel with
  | zero =>
    intro n w
    simp [StartChat]
  | succ fuel ih =>
    intro n w
    cases n with
    | zero =>
      rw [List.replicate_zero, StartChat_blocked p q run fuel w w [] (read_nil q w)]
      simp
    | succ n =>
      obtain ⟨w', hr, hp, hout⟩ := read_fail_other q w typed e he
        (List.replicate n (ReadResult.fail typed e))
      rw [List.replicate_succ, StartChat_skip p q run fuel w w' _ _ [] hr]
      obtain ⟨ih1, ih2, ih3⟩ := ih n w'
      refine ⟨ih1, ?_, ?_⟩
      · simp only [Run.after, ih2, Nat.succ_min_succ, List.replicate_succ]
        rfl
      · simp only [Run.after, ih3, hout, hp, Nat.succ_min_succ, List.replicate_succ,
          List.flatten_cons, List.append_assoc]

/-! ## The prompt -/

theorem readLine_prompt (q : GoString) (w : World σ) (script : List ReadResult) :
    (readLine q w script).world.chat.reader.prompt = w.chat.reader.prompt
    ∧ (readLine q w script).world.chat.prompt = w.chat.prompt := by
  cases script with
  | nil => exact ⟨rfl, rfl⟩
  | cons x script =>
    rcases ReadResult.line_or_fail x with ⟨l, rfl⟩ | ⟨typed, e, rfl⟩
    · exact ⟨rfl, rfl⟩
    · rw [readLine_fail]
      simp only [Read.world, handleReadError_chat]
      exact ⟨rfl, rfl⟩

theorem loop_prompt (q t : GoString) (script : List ReadResult) :
    ∀ (b : GoString) (w w' : World σ) (rest : List ReadResult) (v : GoString × Bool),
      readMultiLineLoop q t b w script = .ret v w' rest →
        w'.chat.reader.prompt = w.chat.prompt.user ∧ w'.chat.prompt = w.chat.prompt := by
  induction script with
  | nil =>
    intro b w w' rest v h
    simp [readMultiLineLoop] at h
  | cons x script ih =>
    intro b w w' rest v h
    rcases ReadResult.line_or_fail x with ⟨l, rfl⟩ | ⟨typed, e, rfl⟩
    · cases hs : strings.HasSuffix l t with
      | true =>
        rw [loop_terminator q t b w l script hs] at h
        injection h with _ h2 _
        rw [← h2]
        exact ⟨rfl, rfl⟩
      | false =>
        rw [loop_content q t b w l script hs] at h
        obtain ⟨h1, h2⟩ := ih _ _ _ _ _ h
        have hp : (if len b == 0 then
            (w.displayed [w.chat.reader.prompt]).SetPrompt w.chat.prompt.userNext
            else w.displayed [w.chat.reader.prompt]).chat.prompt = w.chat.prompt := by
          split <;> rfl
        rw [hp] at h1 h2
        exact ⟨h1, h2⟩
    · rw [loop_fail] at h
      injection h with _ h2 _
      rw [← h2, handleReadError_chat]
      exact ⟨rfl, rfl⟩

/-- A read started with the primary prompt set returns with the primary prompt
set, in both input modes. -/
theorem read_prompt (q : GoString) (w w' : World σ) (script rest : List ReadResult)
    (v : GoString × Bool) (hw : w.chat.reader.prompt = w.chat.prompt.user)
    (h : read q w script = .ret v w' rest) :
    w'.chat.reader.prompt = w'.chat.prompt.user := by
  unfold read at h
  split at h
  · obtain ⟨h1, h2⟩ := loop_prompt q _ script _ _ _ _ _ h
    rw [h1, h2]
  · have hp := readLine_prompt q w script
    rw [h] at hp
    simp only [Read.world] at hp
    rw [hp.1, hp.2, hw]

theorem StartChat_prompt (p q : GoString)
    (run : command → GoString → World σ → Bool × World σ)
    (hrun : ∀ cmd m w, (run cmd m w).2.chat.reader.prompt = w.chat.reader.prompt
      ∧ (run cmd m w).2.chat.prompt = w.chat.prompt) (fuel : Nat) :
    ∀ (w : World σ) (script : List ReadResult),
      w.chat.reader.prompt = w.chat.prompt.user →
      (StartChat p q run fuel w script).status ≠ Status.blocked →
        (StartChat p q run fuel w script).world.chat.reader.prompt
          = (StartChat p q run fuel w script).world.chat.prompt.user := by
  induction fuel with
  | zero =>
    intro w script hw _
    exact hw
  | succ fuel ih =>
    intro w script hw
    cases hr : read q w script with
    | blocked w' =>
      rw [StartChat_blocked p q run fuel w w' script hr]
      intro h
      exact absurd rfl h
    | ret v w' rest =>
      obtain ⟨m0, ok⟩ := v
      have hw' := read_prompt q w w' script rest _ hw hr
      cases ok with
      | false =>
        rw [StartChat_skip p q run fuel w w' script rest m0 hr]
        exact ih w' rest hw'
      | true =>
        have hw2 : (run (parseCommand p m0) m0 w').2.chat.reader.prompt
            = (run (parseCommand p m0) m0 w').2.chat.prompt.user := by
          rw [(hrun _ _ _).1, (hrun _ _ _).2]
          exact hw'
        cases hq : (run (parseCommand p m0) m0 w').1 with
        | true =>
          rw [StartChat_quit p q run fuel w w' script rest m0 hr hq]
          intro _
          exact hw2
        | false =>
          rw [StartChat_continue p q run fuel w w' script rest m0 hr hq]
          exact ih _ rest hw2

/-- One more read of an entry displays the prompt that is set, whatever it
returns. -/
theorem loop_one_shown (q t b : GoString) (w : World σ) (x : ReadResult) :
    (readMultiLineLoop q t b w [x]).world.chat.reader.shown
      = w.chat.reader.shown ++ [w.chat.reader.prompt] := by
  rcases ReadResult.line_or_fail x with ⟨l, rfl⟩ | ⟨typed, e, rfl⟩
  · cases hs : strings.HasSuffix l t with
    | true =>
      rw [loop_terminator q t b w l [] hs]
      rfl
    | false =>
      rw [loop_content q t b w l [] hs, readMultiLineLoop]
      split <;> rfl
  · rw [loop_fail]
    simp only [Read.world, handleReadError_chat]
    rfl

theorem midEntry_next_shown (w : World σ) (n : Nat) :
    (w.midEntry n).chat.reader.shown ++ [(w.midEntry n).chat.reader.prompt]
      = w.chat.reader.shown
        ++ (w.chat.reader.prompt :: List.replicate n w.chat.prompt.userNext) := by
  cases n with
  | zero => rfl
  | succ n =>
    simp [World.midEntry, World.SetPrompt, Instance.SetPrompt, World.displayed,
      List.replicate_succ']

/-! ## Blank input -/

theorem TrimSpace_eq_nil_iff (s : GoString) :
    strings.TrimSpace s = [] ↔ ∀ c ∈ s, unicode.IsSpace c = true := by
  unfold strings.TrimSpace
  rw [List.rdropWhile_eq_nil_iff]
  constructor
  · intro h
    have hd : List.dropWhile unicode.IsSpace s = [] := by
      by_contra hne
      have h0 := List.head_dropWhile_not unicode.IsSpace s hne
      have h1 := h _ (List.head_mem hne)
      rw [h0] at h1
      exact absurd h1 (by decide)
    exact List.dropWhile_eq_nil_iff.mp hd
  · intro h
    rw [List.dropWhile_eq_nil_iff.mpr h]
    intro x hx
    cases hx

theorem validateInput_blank (s : GoString) (h : strings.TrimSpace s = []) :
    validateInput s = ([], false) := by
  simp [validateInput, h]

theorem contentText_blank (lines : List GoString)
    (h : ∀ l ∈ lines, ∀ c ∈ l, unicode.IsSpace c = true) :
    ∀ c ∈ contentText lines, unicode.IsSpace c = true := by
  induction lines with
  | nil =>
    intro c hc
    simp [contentText] at hc
  | cons l ls ih =>
    intro c hc
    rw [contentText_cons] at hc
    simp only [List.append_assoc, List.mem_append, List.mem_singleton] at hc
    rcases hc with hc | hc | hc
    · exact h l (by simp) c hc
    · rw [hc]
      decide
    · exact ih (fun l' hl' => h l' (by simp [hl'])) c hc

theorem TrimSuffix_self (t : GoString) : strings.TrimSuffix t t = [] := by
  have h : strings.HasSuffix t t = true := (HasSuffix_iff t t).mpr (List.suffix_refl t)
  have ha := TrimSuffix_append t t h
  have hl := congrArg List.length ha
  simp only [List.length_append] at hl
  exact List.length_eq_zero.mp (by omega)

/-! ## A whole entry -/

theorem midEntry_frame (w : World σ) (n : Nat) :
    (w.midEntry n).chat.model = w.chat.model ∧ (w.midEntry n).chat.prompt = w.chat.prompt
    ∧ (w.midEntry n).chat.opts = w.chat.opts ∧ (w.midEntry n).stdout = w.stdout
    ∧ (w.midEntry n).chat.reader.historyDisabled = w.chat.reader.historyDisabled := by
  cases n <;> exact ⟨rfl, rfl, rfl, rfl, rfl⟩

theorem afterEntry_frame (w : World σ) (n : Nat) :
    (w.afterEntry n).chat.model = w.chat.model ∧ (w.afterEntry n).chat.prompt = w.chat.prompt
    ∧ (w.afterEntry n).chat.opts = w.chat.opts ∧ (w.afterEntry n).stdout = w.stdout
    ∧ (w.afterEntry n).chat.reader.historyDisabled = w.chat.reader.historyDisabled
    ∧ (w.afterEntry n).chat.reader.prompt = w.chat.prompt.user := by
  cases n <;> exact ⟨rfl, rfl, rfl, rfl, rfl, rfl⟩

/-- A multi-line entry ended by a terminator line. -/
theorem readMultiLine_terminated (q : GoString) (w : World σ) (lines : List GoString)
    (last : GoString) (rest : List ReadResult)
    (hlines : ∀ l ∈ lines, strings.HasSuffix l w.chat.opts.Terminator = false)
    (hlast : strings.HasSuffix last w.chat.opts.Terminator = true) :
    readMultiLine q w (lines.map ReadResult.line ++ ReadResult.line last :: rest) =
      .ret (validateInput (contentText lines ++ strings.TrimSuffix last w.chat.opts.Terminator))
        (w.afterEntry lines.length) rest := by
  rw [readMultiLine, loop_lines q _ lines hlines, loop_terminator q _ _ _ last rest hlast]
  rfl

/-- A multi-line entry ended by a failed read. -/
theorem readMultiLine_failed (q : GoString) (w : World σ) (lines : List GoString)
    (typed : GoString) (e : GoError) (rest : List ReadResult)
    (hlines : ∀ l ∈ lines, strings.HasSuffix l w.chat.opts.Terminator = false) :
    readMultiLine q w (lines.map ReadResult.line ++ ReadResult.fail typed e :: rest) =
      .ret
        (handleReadError q (w.afterEntry lines.length)
          (len (contentText lines) + len typed) e).1
        (handleReadError q (w.afterEntry lines.length)
          (len (contentText lines) + len typed) e).2 rest := by
  rw [readMultiLine, loop_lines q _ lines hlines, loop_fail]
  rfl

theorem read_single (q : GoString) (w : World σ) (script : List ReadResult)
    (h : w.chat.opts.Multiline = false) : read q w script = readLine q w script := by
  simp [read, h]

theorem read_multi (q : GoString) (w : World σ) (script : List ReadResult)
    (h : w.chat.opts.Multiline = true) : read q w script = readMultiLine q w script := by
  simp [read, h]

/-! ## The history switch -/

theorem loop_history (q t : GoString) (script : List ReadResult) :
    ∀ (b : GoString) (w : World σ),
      (readMultiLineLoop q t b w script).world.chat.reader.historyDisabled
        = w.chat.reader.historyDisabled := by
  induction script with
  | nil =>
    intro b w
    rfl
  | cons x script ih =>
    intro b w
    rcases ReadResult.line_or_fail x with ⟨l, rfl⟩ | ⟨typed, e, rfl⟩
    · cases hs : strings.HasSuffix l t with
      | true =>
        rw [loop_terminator q t b w l script hs]
        rfl
      | false =>
        rw [loop_content q t b w l script hs, ih]
        split <;> rfl
    · rw [loop_fail]
      simp only [Read.world, handleReadError_chat]
      rfl

theorem readLine_history (q : GoString) (w : World σ) (script : List ReadResult) :
    (readLine q w script).world.chat.reader.historyDisabled
      = w.chat.reader.historyDisabled := by
  cases script with
  | nil => rfl
  | cons x script =>
    rcases ReadResult.line_or_fail x with ⟨l, rfl⟩ | ⟨typed, e, rfl⟩
    · rfl
    · rw [readLine_fail]
      simp only [Read.world, handleReadError_chat]
      rfl

/-! ## The empty terminator -/

theorem HasSuffix_nil (s : GoString) : strings.HasSuffix s [] = true :=
  (HasSuffix_iff s []).mpr List.nil_suffix

theorem TrimSuffix_nil (s : GoString) : strings.TrimSuffix s [] = s := by
  have h := TrimSuffix_append s [] (HasSuffix_nil s)
  rwa [List.append_nil] at h

theorem SetPrompt_same (w : World σ) (s : GoString) (h : w.chat.reader.prompt = s) :
    w.SetPrompt s = w := by
  subst h
  rfl

/-! ## Worlds that differ in the displayed prompts only -/

theorem handleReadError_congr (q : GoString) (w1 w2 : World σ) (n : Nat) (e : GoError)
    (h : w1.erase = w2.erase) :
    (handleReadError q w1 n e).1 = (handleReadError q w2 n e).1
    ∧ (handleReadError q w1 n e).2.erase = (handleReadError q w2 n e).2.erase := by
  cases he : e.isInterrupt with
  | true =>
    rw [handleReadError_interrupt q w1 n e he, handleReadError_interrupt q w2 n e he]
    exact ⟨rfl, h⟩
  | false =>
    rw [handleReadError_other q w1 n e he, handleReadError_other q w2 n e he]
    refine ⟨rfl, ?_⟩
    have h1 : ∀ w : World σ, (w.Printf (w.chat.prompt.cli ++ e.text ++ ['\n'])).erase
        = w.erase.Printf (w.erase.chat.prompt.cli ++ e.text ++ ['\n']) := fun _ => rfl
    rw [h1 w1, h1 w2, h]

theorem loop_congr (q t : GoString) (script : List ReadResult) :
    ∀ (b : GoString) (w1 w2 : World σ), w1.erase = w2.erase →
      (readMultiLineLoop q t b w1 script).erase = (readMultiLineLoop q t b w2 script).erase := by
  induction script with
  | nil =>
    intro b w1 w2 h
    simp only [readMultiLineLoop, Read.erase, h]
  | cons x script ih =>
    intro b w1 w2 h
    rcases ReadResult.line_or_fail x with ⟨l, rfl⟩ | ⟨typed, e, rfl⟩
    · cases hs : strings.HasSuffix l t with
      | true =>
        rw [loop_terminator q t b w1 l script hs, loop_terminator q t b w2 l script hs]
        have h1 : ∀ w : World σ,
            ((w.displayed [w.chat.reader.prompt]).SetPrompt w.chat.prompt.user).erase
              = w.erase.SetPrompt w.erase.chat.prompt.user := fun _ => rfl
        simp only [Read.erase, h1, h]
      | false =>
        rw [loop_content q t b w1 l script hs, loop_content q t b w2 l script hs]
        apply ih
        have h1 : ∀ w : World σ,
            (if len b == 0 then
              (w.displayed [w.chat.reader.prompt]).SetPrompt w.chat.prompt.userNext
              else w.displayed [w.chat.reader.prompt]).erase
              = (if len b == 0 then w.erase.SetPrompt w.erase.chat.prompt.userNext
                else w.erase) := by
          intro w
          split <;> rfl
        rw [h1 w1, h1 w2, h]
    · rw [loop_fail, loop_fail]
      have h1 : ∀ w : World σ,
          ((w.displayed [w.chat.reader.prompt]).SetPrompt w.chat.prompt.user).erase
            = w.erase.SetPrompt w.erase.chat.prompt.user := fun _ => rfl
      have h2 : ((w1.displayed [w1.chat.reader.prompt]).SetPrompt w1.chat.prompt.user).erase
          = ((w2.displayed [w2.chat.reader.prompt]).SetPrompt w2.chat.prompt.user).erase := by
        rw [h1 w1, h1 w2, h]
      obtain ⟨hv, hw⟩ := handleReadError_congr q _ _ (len b + len typed) e h2
      simp only [Read.erase, hv, hw]

theorem readLine_congr (q : GoString) (w1 w2 : World σ) (script : List ReadResult)
    (h : w1.erase = w2.erase) :
    (readLine q w1 script).erase = (readLine q w2 script).erase := by
  have h1 : ∀ w : World σ, (w.displayed [w.chat.reader.prompt]).erase = w.erase :=
    fun _ => rfl
  cases script with
  | nil => simp only [readLine_nil, Read.erase, h]
  | cons x script =>
    rcases ReadResult.line_or_fail x with ⟨l, rfl⟩ | ⟨typed, e, rfl⟩
    · simp only [readLine_line, Read.erase, h1, h]
    · rw [readLine_fail, readLine_fail]
      obtain ⟨hv, hw⟩ := handleReadError_congr q (w1.displayed [w1.chat.reader.prompt])
        (w2.displayed [w2.chat.reader.prompt]) (len typed) e (by rw [h1 w1, h1 w2, h])
      simp only [Read.erase, hv, hw]

theorem read_congr (q : GoString) (w1 w2 : World σ) (script : List ReadResult)
    (h : w1.erase = w2.erase) :
    (read q w1 script).erase = (read q w2 script).erase := by
  have ho : w1.chat.opts = w2.chat.opts := congrArg (fun w => w.chat.opts) h
  unfold read readMultiLine
  rw [ho]
  split
  · exact loop_congr q _ script [] w1 w2 h
  · exact readLine_congr q w1 w2 script h

/-- The loop does the same from worlds that differ in the displayed prompts only,
the handlers not depending on them. -/
theorem StartChat_congr (p q : GoString)
    (run : command → GoString → World σ → Bool × World σ) (hrun : ignoresDisplay run)
    (fuel : Nat) :
    ∀ (w1 w2 : World σ) (script : List ReadResult), w1.erase = w2.erase →
      (StartChat p q run fuel w1 script).erase = (StartChat p q run fuel w2 script).erase := by
  induction fuel with
  | zero =>
    intro w1 w2 script h
    simp only [StartChat, Run.erase, h]
  | succ fuel ih =>
    intro w1 w2 script h
    have hr := read_congr q w1 w2 script h
    cases hr1 : read q w1 script with
    | blocked w1' =>
      cases hr2 : read q w2 script with
      | blocked w2' =>
        rw [hr1, hr2] at hr
        simp only [Read.erase, Read.blocked.injEq] at hr
        rw [StartChat_blocked p q run fuel w1 w1' script hr1,
          StartChat_blocked p q run fuel w2 w2' script hr2]
        simp only [Run.erase, hr]
      | ret v2 w2' rest2 =>
        rw [hr1, hr2] at hr
        simp [Read.erase] at hr
    | ret v1 w1' rest1 =>
      cases hr2 : read q w2 script with
      | blocked w2' =>
        rw [hr1, hr2] at hr
        simp [Read.erase] at hr
      | ret v2 w2' rest2 =>
        rw [hr1, hr2] at hr
        simp only [Read.erase, Read.ret.injEq] at hr
        obtain ⟨hv, hw, hrest⟩ := hr
        subst hv hrest
        obtain ⟨m0, ok⟩ := v1
        cases ok with
        | false =>
          rw [StartChat_skip p q run fuel w1 w1' script rest1 m0 hr1,
            StartChat_skip p q run fuel w2 w2' script rest1 m0 hr2]
          have := ih w1' w2' rest1 hw
          simp only [Run.erase, Run.after, Run.mk.injEq] at this ⊢
          obtain ⟨h1, h2, h3, h4⟩ := this
          exact ⟨h1, by rw [h2], h3, h4⟩
        | true =>
          obtain ⟨hq1, hq2⟩ := hrun (parseCommand p m0) m0 w1' w2' hw
          cases hb : (run (parseCommand p m0) m0 w1').1 with
          | true =>
            rw [StartChat_quit p q run fuel w1 w1' script rest1 m0 hr1 hb,
              StartChat_quit p q run fuel w2 w2' script rest1 m0 hr2 (hq1 ▸ hb)]
            simp only [Run.erase, hq2]
          | false =>
            rw [StartChat_continue p q run fuel w1 w1' script rest1 m0 hr1 hb,
              StartChat_continue p q run fuel w2 w2' script rest1 m0 hr2 (hq1 ▸ hb)]
            have := ih _ _ rest1 hq2
            simp only [Run.erase, Run.after, Run.mk.injEq] at this ⊢
            obtain ⟨h1, h2, h3, h4⟩ := this
            exact ⟨h1, by rw [h2], h3, h4⟩

theorem afterEntry_erase (w : World σ) (n : Nat)
    (hw : w.chat.reader.prompt = w.chat.prompt.user) : (w.afterEntry n).erase = w.erase := by
  have h : w.erase = (w.SetPrompt w.chat.prompt.user).erase := by
    rw [SetPrompt_same w _ hw]
  rw [h]
  cases n <;> rfl

theorem erase_after (r : Run σ) (evs : List Event) :
    (r.after evs).erase = r.erase.after evs := rfl

/-- An entry that an interrupt aborts, with content lines accepted or something
typed: the read returns `("", false)` and leaves the world as it was, displayed
prompts apart. -/
theorem read_aborted (q : GoString) (w : World σ)
    (hw : w.chat.reader.prompt = w.chat.prompt.user)
    (lines : List GoString) (typed : GoString) (e : GoError) (rest : List ReadResult)
    (he : e.isInterrupt = true)
    (hlines : ∀ l ∈ lines, strings.HasSuffix l w.chat.opts.Terminator = false)
    (hmode : w.chat.opts.Multiline = false → lines = [])
    (hpending : lines ≠ [] ∨ typed ≠ []) :
    ∃ w' : World σ,
      read q w (lines.map ReadResult.line ++ ReadResult.fail typed e :: rest)
        = .ret ([], false) w' rest
      ∧ w'.erase = w.erase := by
  cases hm : w.chat.opts.Multiline with
  | false =>
    have hl := hmode hm
    subst hl
    have ht : len typed ≠ 0 := by
      rw [Ne, len_eq_zero_iff]
      rcases hpending with h | h
      · exact absurd rfl h
      · exact h
    refine ⟨w.displayed [w.chat.reader.prompt], ?_, rfl⟩
    rw [List.map_nil, List.nil_append, read_single q w _ hm, readLine_fail,
      handleReadError_interrupt q _ _ e he, if_neg ht]
  | true =>
    have hn : len (contentText lines) + len typed ≠ 0 := by
      rw [Ne, Nat.add_eq_zero_iff, len_eq_zero_iff, len_eq_zero_iff, contentText_eq_nil]
      rintro ⟨h1, h2⟩
      rcases hpending with h | h
      · exact h h1
      · exact h h2
    refine ⟨w.afterEntry lines.length, ?_, afterEntry_erase w _ hw⟩
    rw [read_multi q w _ hm, readMultiLine_failed q w lines typed e rest hlines,
      handleReadError_interrupt q _ _ e he, if_neg hn]

/-! ## The loop as a sequence of iterations -/

theorem StartChat_log_shape (p q : GoString)
    (run : command → GoString → World σ → Bool × World σ) (fuel : Nat) :
    ∀ (w : World σ) (script : List ReadResult),
      loopShape (StartChat p q run fuel w script).log = true
      ∧ ((StartChat p q run fuel w script).status = Status.returned ↔
          ∃ cmd m, Event.run cmd m true ∈ (StartChat p q run fuel w script).log) := by
  induction fuel with
  | zero =>
    intro w script
    simp [StartChat, loopShape]
  | succ fuel ih =>
    intro w script
    refine ⟨?_, ?_⟩
    all_goals
      cases hr : read q w script with
      | blocked w' =>
        rw [StartChat_blocked p q run fuel w w' script hr]
        simp [loopShape]
      | ret v w' rest =>
        obtain ⟨m0, ok⟩ := v
        cases ok with
        | false =>
          rw [StartChat_skip p q run fuel w w' script rest m0 hr]
          obtain ⟨ih1, ih2⟩ := ih w' rest
          first
            | simpa [Run.after, loopShape_skip] using ih1
            | simpa [Run.after] using ih2
        | true =>
          cases hq : (run (parseCommand p m0) m0 w').1 with
          | true =>
            rw [StartChat_quit p q run fuel w w' script rest m0 hr hq]
            simp [loopShape_dispatch]
          | false =>
            rw [StartChat_continue p q run fuel w w' script rest m0 hr hq]
            obtain ⟨ih1, ih2⟩ := ih (run (parseCommand p m0) m0 w').2 rest
            first
              | simpa [Run.after, loopShape_dispatch] using ih1
              | simpa [Run.after] using ih2

/-- What an execution of `StartChat` is made of: iterations that do not end the
loop, followed by nothing (the loop is at its top), by a read that does not return
(the loop waits), or by a usable read and the run of its command that returns
true (the loop has returned). -/
theorem StartChat_iterations (p q : GoString)
    (run : command → GoString → World σ → Bool × World σ) (fuel : Nat) :
    ∀ (w : World σ) (script : List ReadResult),
      ((StartChat p q run fuel w script).status = Status.running →
        Iterations p q run fuel w script (StartChat p q run fuel w script).log
          (StartChat p q run fuel w script).world (StartChat p q run fuel w script).rest)
      ∧ ((StartChat p q run fuel w script).status = Status.blocked →
        ∃ (n : Nat) (w0 : World σ) (s0 : List ReadResult), n < fuel
          ∧ Iterations p q run n w script (StartChat p q run fuel w script).log w0 s0
          ∧ read q w0 s0 = .blocked (StartChat p q run fuel w script).world)
      ∧ ((StartChat p q run fuel w script).status = Status.returned →
        ∃ (n : Nat) (evs : List Event) (w0 : World σ) (s0 : List ReadResult)
          (m : GoString) (w1 : World σ), n < fuel
          ∧ Iterations p q run n w script evs w0 s0
          ∧ read q w0 s0 = .ret (m, true) w1 (StartChat p q run fuel w script).rest
          ∧ run (parseCommand p m) m w1 = (true, (StartChat p q run fuel w script).world)
          ∧ (StartChat p q run fuel w script).log
              = evs ++ [.read m true, .run (parseCommand p m) m true]) := by
  induction fuel with
  | zero =>
    intro w script
    refine ⟨fun _ => Iterations.done w script, fun h => ?_, fun h => ?_⟩
    · simp [StartChat] at h
    · simp [StartChat] at h
  | succ fuel ih =>
    intro w script
    cases hr : read q w script with
    | blocked w' =>
      rw [StartChat_blocked p q run fuel w w' script hr]
      refine ⟨fun h => ?_, fun _ => ?_, fun h => ?_⟩
      · simp at h
      · exact ⟨0, w, script, Nat.succ_pos _, Iterations.done w script, hr⟩
      · simp at h
    | ret v w' rest =>
      obtain ⟨m0, ok⟩ := v
      cases ok with
      | false =>
        rw [StartChat_skip p q run fuel w w' script rest m0 hr]
        obtain ⟨ih1, ih2, ih3⟩ := ih w' rest
        refine ⟨fun h => Iterations.skip hr (ih1 h), fun h => ?_, fun h => ?_⟩
        · obtain ⟨n, w0, s0, hn, hi, hb⟩ := ih2 h
          exact ⟨n + 1, w0, s0, Nat.succ_lt_succ hn, Iterations.skip hr hi, hb⟩
        · obtain ⟨n, evs, w0, s0, m, w1, hn, hi, hread, hrun, hlog⟩ := ih3 h
          refine ⟨n + 1, .read m0 false :: evs, w0, s0, m, w1, Nat.succ_lt_succ hn,
            Iterations.skip hr hi, hread, hrun, ?_⟩
          show [Event.read m0 false] ++ (StartChat p q run fuel w' rest).log = _
          rw [hlog]
          rfl
      | true =>
        cases hq : (run (parseCommand p m0) m0 w').1 with
        | true =>
          rw [StartChat_quit p q run fuel w w' script rest m0 hr hq]
          refine ⟨fun h => ?_, fun h => ?_, fun _ => ?_⟩
          · simp at h
          · simp at h
          · exact ⟨0, [], w, script, m0, w', Nat.succ_pos _, Iterations.done w script, hr,
              Prod.ext hq rfl, rfl⟩
        | false =>
          rw [StartChat_continue p q run fuel w w' script rest m0 hr hq]
          have hgo : run (parseCommand p m0) m0 w'
              = (false, (run (parseCommand p m0) m0 w').2) := Prod.ext hq rfl
          obtain ⟨ih1, ih2, ih3⟩ := ih (run (parseCommand p m0) m0 w').2 rest
          refine ⟨fun h => Iterations.dispatch hr hgo (ih1 h), fun h => ?_, fun h => ?_⟩
          · obtain ⟨n, w0, s0, hn, hi, hb⟩ := ih2 h
            exact ⟨n + 1, w0, s0, Nat.succ_lt_succ hn, Iterations.dispatch hr hgo hi, hb⟩
          · obtain ⟨n, evs, w0, s0, m, w1, hn, hi, hread, hrun, hlog⟩ := ih3 h
            refine ⟨n + 1, .read m0 true :: .run (parseCommand p m0) m0 false :: evs,
              w0, s0, m, w1, Nat.succ_lt_succ hn, Iterations.dispatch hr hgo hi,
              hread, hrun, ?_⟩
            show [Event.read m0 true, Event.run (parseCommand p m0) m0 false]
              ++ (StartChat p q run fuel (run (parseCommand p m0) m0 w').2 rest).log = _
            rw [hlog]
            rfl

end loop

/-! ## The claims -/

section claims

variable {σ : Type}

/-- C1. A multi-line entry that reaches the terminator: when the reader returns
the lines `lines` (none ending with the terminator) and then `last` (ending with
it), `readMultiLine` returns `(s, s != "")` for
`s = TrimSpace(l_1 + "\n" + ... + l_n + "\n" + TrimSuffix(last, t))`, having made
exactly `n + 1` reads and left the rest of the script untouched; the terminator
is removed once from the end of `last`. -/
theorem readMultiLine_entry (q : GoString) (w : World σ) (lines : List GoString)
    (last : GoString) (rest : List ReadResult)
    (hlines : ∀ l ∈ lines, strings.HasSuffix l w.chat.opts.Terminator = false)
    (hlast : strings.HasSuffix last w.chat.opts.Terminator = true) :
    ∃ w' : World σ,
      readMultiLine q w (lines.map ReadResult.line ++ ReadResult.line last :: rest) =
        .ret
          (strings.TrimSpace
              ((lines.map (fun l => l ++ ['\n'])).flatten
                ++ strings.TrimSuffix last w.chat.opts.Terminator),
            strings.TrimSpace
              ((lines.map (fun l => l ++ ['\n'])).flatten
                ++ strings.TrimSuffix last w.chat.opts.Terminator) != [])
          w' rest
      ∧ w'.chat.reader.shown.length = w.chat.reader.shown.length + (lines.length + 1)
      ∧ strings.TrimSuffix last w.chat.opts.Terminator ++ w.chat.opts.Terminator = last := by
  refine ⟨((w.midEntry lines.length).displayed
      [(w.midEntry lines.length).chat.reader.prompt]).SetPrompt
      (w.midEntry lines.length).chat.prompt.user, ?_, ?_, TrimSuffix_append _ _ hlast⟩
  · rw [readMultiLine, loop_lines q _ lines hlines, loop_terminator q _ _ _ last rest hlast]
    rfl
  · have := midEntry_shown_length w lines.length
    simp only [World.SetPrompt, Instance.SetPrompt, World.displayed, List.length_append,
      List.length_singleton, this]
    omega

/-- C1 at the scenario of the specification: terminator `;;`, lines `line1`,
`line2;;` give `line1\nline2`; a line with `;;` in its middle is content. -/
theorem readMultiLine_entry_witness :
    ∃ w' : World Unit,
      readMultiLine "!q".toList multiLineWorld
          (["a;;b".toList, "line1".toList].map ReadResult.line
            ++ ReadResult.line "line2;;".toList :: [ReadResult.line "next".toList]) =
        .ret ("a;;b\nline1\nline2".toList, true) w' [ReadResult.line "next".toList]
      ∧ w'.chat.reader.shown.length = 3 := by
  obtain ⟨w', h1, h2, _⟩ := readMultiLine_entry "!q".toList multiLineWorld
    ["a;;b".toList, "line1".toList] "line2;;".toList [ReadResult.line "next".toList]
    (by decide) (by decide)
  exact ⟨w', h1, h2⟩

/-- C2. The read-error policy: `handleReadError` returns the quit sentinel with
`true` exactly for an operator interrupt at input length zero, and `("", false)`
in every other case; `readLine` passes it the length of the partial line that
came with the error. -/
theorem handleReadError_policy (q : GoString) (w : World σ) (n : Nat)
    (e : GoError) :
    ((handleReadError q w n e).1 = (q, true) ↔ (e.isInterrupt = true ∧ n = 0))
    ∧ (¬ (e.isInterrupt = true ∧ n = 0) → (handleReadError q w n e).1 = ([], false))
    ∧ (∀ (input : GoString) (rest : List ReadResult),
        ∃ w1 : World σ,
          Readline w (ReadResult.fail input e :: rest) = .ret (ReadResult.fail input e) w1 rest
          ∧ readLine q w (ReadResult.fail input e :: rest) =
              .ret (handleReadError q w1 (len input) e).1
                (handleReadError q w1 (len input) e).2 rest) := by
  refine ⟨?_, ?_, ?_⟩
  · unfold handleReadError
    cases hi : e.isInterrupt <;> cases hn : n <;> simp
  · unfold handleReadError
    cases hi : e.isInterrupt <;> cases hn : n <;> simp
  · intro input rest
    exact ⟨_, Readline_cons w _ rest, rfl⟩

/-- C3. Every message the loop dispatches is trimmed and non-empty, in both input
modes and on the interrupt path too, the quit sentinel being a trimmed non-empty
text. -/
theorem StartChat_dispatches_trimmed (p q : GoString)
    (hq : strings.TrimSpace q = q ∧ q ≠ [])
    (run : command → GoString → World σ → Bool × World σ) (fuel : Nat)
    (w : World σ) (script : List ReadResult) (cmd : command) (m : GoString) (quit : Bool)
    (h : Event.run cmd m quit ∈ (StartChat p q run fuel w script).log) :
    strings.TrimSpace m = m ∧ m ≠ [] :=
  ReadValue_usable q hq m (StartChat_run_mem p q run fuel w script cmd m quit h).2

/-- C3 at concrete inputs: a padded line and then an interrupt at the empty prompt
dispatch `hello` and the sentinel `!q`. -/
theorem StartChat_dispatches_trimmed_witness :
    (StartChat "!".toList "!q".toList exampleRun 3 singleLineWorld
        [ReadResult.line "  hello\t".toList, interruptAtEmpty]).log =
      [.read "hello".toList true, .run .geminiCommand "hello".toList false,
        .read "!q".toList true, .run .systemCommand "!q".toList true]
    ∧ (strings.TrimSpace "hello".toList = "hello".toList ∧ "hello".toList ≠ [])
    ∧ (strings.TrimSpace "!q".toList = "!q".toList ∧ "!q".toList ≠ []) :=
  ⟨by decide,
    StartChat_dispatches_trimmed "!".toList "!q".toList ⟨by decide, by decide⟩ exampleRun 3
      singleLineWorld [ReadResult.line "  hello\t".toList, interruptAtEmpty]
      .geminiCommand "hello".toList false (by decide),
    StartChat_dispatches_trimmed "!".toList "!q".toList ⟨by decide, by decide⟩ exampleRun 3
      singleLineWorld [ReadResult.line "  hello\t".toList, interruptAtEmpty]
      .systemCommand "!q".toList true (by decide)⟩

/-- C4. In multi-line mode the length given to the error policy counts the
accumulated entry: an operator interrupt after the content lines `lines` with the
partial line `typed` yields the quit sentinel with `true` exactly when no content
line was accepted and `typed` is empty, and `("", false)` otherwise. -/
theorem readMultiLine_interrupt (q : GoString) (w : World σ)
    (lines : List GoString) (typed : GoString) (e : GoError) (rest : List ReadResult)
    (hlines : ∀ l ∈ lines, strings.HasSuffix l w.chat.opts.Terminator = false)
    (he : e.isInterrupt = true) :
    ∃ w' : World σ,
      readMultiLine q w (lines.map ReadResult.line ++ ReadResult.fail typed e :: rest) =
        .ret (if lines = [] ∧ typed = [] then (q, true) else ([], false)) w' rest
      ∧ (lines ≠ [] →
          readMultiLine q w (lines.map ReadResult.line ++ ReadResult.fail typed e :: rest) =
            .ret ([], false) w' rest) := by
  have key : readMultiLine q w (lines.map ReadResult.line ++ ReadResult.fail typed e :: rest) =
      .ret (if lines = [] ∧ typed = [] then (q, true) else ([], false))
        (((w.midEntry lines.length).displayed
          [(w.midEntry lines.length).chat.reader.prompt]).SetPrompt
          (w.midEntry lines.length).chat.prompt.user) rest := by
    rw [readMultiLine, loop_lines q _ lines hlines, loop_fail]
    have hz : (len (contentText lines) + len typed = 0) ↔ (lines = [] ∧ typed = []) := by
      rw [Nat.add_eq_zero_iff, len_eq_zero_iff, len_eq_zero_iff, contentText_eq_nil]
    rw [handleReadError_interrupt q _ _ e he]
    by_cases hc : lines = [] ∧ typed = []
    · rw [if_pos (hz.mpr hc), if_pos hc]
    · rw [if_neg (fun h => hc (hz.mp h)), if_neg hc]
  refine ⟨_, key, ?_⟩
  intro hne
  rw [key]
  simp [hne]

/-- C4 at concrete inputs: after the (empty) content line an interrupt with
nothing typed is not a quit. -/
theorem readMultiLine_interrupt_witness :
    ∃ w' : World Unit,
      readMultiLine "!q".toList multiLineWorld
          ([([] : GoString)].map ReadResult.line
            ++ ReadResult.fail [] ⟨true, "Interrupt".toList⟩ :: []) =
        .ret ([], false) w' [] := by
  obtain ⟨w', h, _⟩ := readMultiLine_interrupt "!q".toList multiLineWorld [[]] []
    ⟨true, "Interrupt".toList⟩ [] (by decide) rfl
  exact ⟨w', h⟩

/-- C5. What `StartChat` does over any script and any handlers, in terms of the
reads and the runs it makes.  Its execution is a sequence of iterations none of
which ends the loop (an unusable read with no dispatch, or a usable read and the
run of exactly one command, the one `parseCommand` gives for the message read, that
returns false), after which: it is at the top of the loop, the allowed number of
iterations made; or it waits in a read that does not return; or it has returned,
and then the last iteration was a usable read and the run of its command returned
true, the world is the one that run left and the script is what that read left, so
no read and no dispatch follows.  It returns in no other way: it has returned
exactly when a dispatched command returned true, and no read ends the loop.  The
events have the shape of the loop, and with more iterations allowed than the
script has results the loop has returned or waits in a read. -/
theorem StartChat_temporal (p q : GoString)
    (run : command → GoString → World σ → Bool × World σ) (fuel : Nat) :
    ∀ (w : World σ) (script : List ReadResult),
      ((StartChat p q run fuel w script).status = Status.running →
        Iterations p q run fuel w script (StartChat p q run fuel w script).log
          (StartChat p q run fuel w script).world (StartChat p q run fuel w script).rest)
      ∧ ((StartChat p q run fuel w script).status = Status.blocked →
        ∃ (n : Nat) (w0 : World σ) (s0 : List ReadResult), n < fuel
          ∧ Iterations p q run n w script (StartChat p q run fuel w script).log w0 s0
          ∧ read q w0 s0 = .blocked (StartChat p q run fuel w script).world)
      ∧ ((StartChat p q run fuel w script).status = Status.returned →
        ∃ (n : Nat) (evs : List Event) (w0 : World σ) (s0 : List ReadResult)
          (m : GoString) (w1 : World σ), n < fuel
          ∧ Iterations p q run n w script evs w0 s0
          ∧ read q w0 s0 = .ret (m, true) w1 (StartChat p q run fuel w script).rest
          ∧ run (parseCommand p m) m w1 = (true, (StartChat p q run fuel w script).world)
          ∧ (StartChat p q run fuel w script).log
              = evs ++ [.read m true, .run (parseCommand p m) m true])
      ∧ loopShape (StartChat p q run fuel w script).log = true
      ∧ ((StartChat p q run fuel w script).status = Status.returned ↔
          ∃ cmd m, Event.run cmd m true ∈ (StartChat p q run fuel w script).log)
      ∧ (script.length < fuel →
          (StartChat p q run fuel w script).status ≠ Status.running) := by
  intro w script
  obtain ⟨h1, h2, h3⟩ := StartChat_iterations p q run fuel w script
  obtain ⟨h4, h5⟩ := StartChat_log_shape p q run fuel w script
  exact ⟨h1, h2, h3, h4, h5, StartChat_enough_fuel p q run fuel w script⟩

/-- C5 at concrete inputs, single-line mode: a blank line is skipped, `hi` goes to
the model command, whose run returns false, `!q` goes to the system command, whose
run returns true; `StartChat` returns there and the line `late` is never read. -/
theorem StartChat_temporal_witness :
    StartChat "!".toList "!q".toList exampleRun 9 singleLineWorld
        [ReadResult.line "  ".toList, ReadResult.line "hi".toList,
          ReadResult.line "!q".toList, ReadResult.line "late".toList]
      = ⟨Status.returned,
          [.read [] false,
            .read "hi".toList true, .run command.geminiCommand "hi".toList false,
            .read "!q".toList true, .run command.systemCommand "!q".toList true],
          singleLineWorld.displayed ["me> ".toList, "me> ".toList, "me> ".toList],
          [ReadResult.line "late".toList]⟩
    ∧ ∃ (n : Nat) (evs : List Event) (w0 : World Unit) (s0 : List ReadResult)
        (m : GoString) (w1 : World Unit), n < 9
        ∧ Iterations "!".toList "!q".toList exampleRun n singleLineWorld
            [ReadResult.line "  ".toList, ReadResult.line "hi".toList,
              ReadResult.line "!q".toList, ReadResult.line "late".toList] evs w0 s0
        ∧ read "!q".toList w0 s0 = .ret (m, true) w1
            (StartChat "!".toList "!q".toList exampleRun 9 singleLineWorld
              [ReadResult.line "  ".toList, ReadResult.line "hi".toList,
                ReadResult.line "!q".toList, ReadResult.line "late".toList]).rest
        ∧ exampleRun (parseCommand "!".toList m) m w1
            = (true, (StartChat "!".toList "!q".toList exampleRun 9 singleLineWorld
              [ReadResult.line "  ".toList, ReadResult.line "hi".toList,
                ReadResult.line "!q".toList, ReadResult.line "late".toList]).world)
        ∧ (StartChat "!".toList "!q".toList exampleRun 9 singleLineWorld
              [ReadResult.line "  ".toList, ReadResult.line "hi".toList,
                ReadResult.line "!q".toList, ReadResult.line "late".toList]).log
            = evs ++ [.read m true, .run (parseCommand "!".toList m) m true] :=
  ⟨by decide,
    (StartChat_temporal "!".toList "!q".toList exampleRun 9 singleLineWorld
      [ReadResult.line "  ".toList, ReadResult.line "hi".toList,
        ReadResult.line "!q".toList, ReadResult.line "late".toList]).2.2.1 (by decide)⟩

/-- C6 (amended). A read error never ends the loop: when every read fails with the
same error other than the interrupt, each iteration prints the error after the cli
prompt, dispatches nothing and goes on to the next read, so `StartChat` has not
returned however many iterations it has made. -/
theorem StartChat_read_errors_continue (p q : GoString)
    (run : command → GoString → World σ → Bool × World σ) (typed : GoString) (e : GoError)
    (he : e.isInterrupt = false) (fuel n : Nat) (w : World σ) :
    (StartChat p q run fuel w (List.replicate n (ReadResult.fail typed e))).status
        ≠ Status.returned
    ∧ (StartChat p q run fuel w (List.replicate n (ReadResult.fail typed e))).log
        = List.replicate (min fuel n) (Event.read [] false)
    ∧ (StartChat p q run fuel w (List.replicate n (ReadResult.fail typed e))).world.stdout
        = w.stdout
          ++ (List.replicate (min fuel n) (w.chat.prompt.cli ++ e.text ++ ['\n'])).flatten :=
  StartChat_failing_reader p q run typed e he fuel n w

/-- C6 (amended) at concrete inputs: two reads at the end of the input. -/
theorem StartChat_read_errors_continue_witness :
    (StartChat "!".toList "!q".toList exampleRun 2 multiLineWorld
        (List.replicate 2 endOfInput)).status ≠ Status.returned
    ∧ (StartChat "!".toList "!q".toList exampleRun 2 multiLineWorld
        (List.replicate 2 endOfInput)).log = [Event.read [] false, Event.read [] false]
    ∧ (StartChat "!".toList "!q".toList exampleRun 2 multiLineWorld
        (List.replicate 2 endOfInput)).world.stdout = "cli> EOF\ncli> EOF\n".toList :=
  StartChat_read_errors_continue "!".toList "!q".toList exampleRun [] ⟨false, "EOF".toList⟩
    rfl 2 2 multiLineWorld

/-- C6 as stated fails: with the reader at the end of its input for good, the loop
does not return after any number of iterations; after three of them it is at the
top of the loop again. -/
theorem StartChat_end_of_input_never_returns :
    (¬ ∃ fuel n : Nat,
        (StartChat "!".toList "!q".toList exampleRun fuel singleLineWorld
          (List.replicate n endOfInput)).status = Status.returned)
    ∧ (StartChat "!".toList "!q".toList exampleRun 3 singleLineWorld
          (List.replicate 3 endOfInput)).status = Status.running := by
  refine ⟨?_, by decide⟩
  rintro ⟨fuel, n, h⟩
  exact (StartChat_failing_reader "!".toList "!q".toList exampleRun []
    ⟨false, "EOF".toList⟩ rfl fuel n singleLineWorld).1 h

/-- C7. In single-line mode an operator interrupt at the empty prompt makes the
loop run exactly one command, the system command on the quit text
`systemCmdQuit`; its run returns true and `StartChat` returns, the rest of the
script, a second interrupt included, never being read. -/
theorem StartChat_interrupt_quits (p q : GoString)
    (run : command → GoString → World σ → Bool × World σ)
    (hbegins : ∃ tail, q = p ++ tail) (hquit : quitReturnsTrue q run)
    (w : World σ) (hmode : w.chat.opts.Multiline = false)
    (e : GoError) (he : e.isInterrupt = true) (rest : List ReadResult) (fuel : Nat) :
    ∃ w' : World σ,
      StartChat p q run (fuel + 1) w (ReadResult.fail [] e :: rest) =
        ⟨Status.returned, [.read q true, .run command.systemCommand q true], w', rest⟩ := by
  have hr : read q w (ReadResult.fail [] e :: rest) =
      .ret (q, true) (w.displayed [w.chat.reader.prompt]) rest := by
    unfold read
    rw [hmode]
    simp only [Bool.false_eq_true, if_false]
    rw [readLine_fail, handleReadError_interrupt q _ _ e he]
    rfl
  have hc : parseCommand p q = command.systemCommand := by
    unfold parseCommand
    obtain ⟨tail, ht⟩ := hbegins
    rw [(HasPrefix_iff q p).mpr ⟨tail, ht.symm⟩]
    rfl
  have hq : (run (parseCommand p q) q (w.displayed [w.chat.reader.prompt])).1 = true := by
    rw [hc]
    exact hquit _
  refine ⟨(run command.systemCommand q (w.displayed [w.chat.reader.prompt])).2, ?_⟩
  rw [StartChat_quit p q run fuel w _ _ rest q hr hq, hc]

/-- C7 at concrete inputs: two interrupts at the empty prompt; the second one stays
in the script. -/
theorem StartChat_interrupt_quits_witness :
    ∃ w' : World Unit,
      StartChat "!".toList "!q".toList exampleRun 5 singleLineWorld
          (ReadResult.fail [] ⟨true, "Interrupt".toList⟩ :: [interruptAtEmpty]) =
        ⟨Status.returned,
          [.read "!q".toList true, .run command.systemCommand "!q".toList true],
          w', [interruptAtEmpty]⟩ :=
  StartChat_interrupt_quits "!".toList "!q".toList exampleRun ⟨"q".toList, rfl⟩
    (fun _ => rfl) singleLineWorld rfl ⟨true, "Interrupt".toList⟩ rfl [interruptAtEmpty] 4

/-- C8. Classification is by the prefix alone: `parseCommand` gives the system
command exactly for the messages that begin with `systemCmdPrefix` and the model
command for all others, and every command the loop runs is the one `parseCommand`
gives for its message, so no message with the prefix goes to the model command. -/
theorem parseCommand_syntactic (p : GoString) :
    (∀ m : GoString, parseCommand p m = command.systemCommand ↔ ∃ tail, m = p ++ tail)
    ∧ (∀ m : GoString, parseCommand p m = command.geminiCommand ↔ ¬ ∃ tail, m = p ++ tail)
    ∧ (∀ (q : GoString) (run : command → GoString → World σ → Bool × World σ) (fuel : Nat)
        (w : World σ) (script : List ReadResult) (cmd : command) (m : GoString) (quit : Bool),
        Event.run cmd m quit ∈ (StartChat p q run fuel w script).log →
          (cmd = command.systemCommand ↔ ∃ tail, m = p ++ tail)) := by
  have h1 : ∀ m : GoString, parseCommand p m = command.systemCommand ↔ ∃ tail, m = p ++ tail := by
    intro m
    have hp := HasPrefix_iff m p
    unfold parseCommand
    cases hh : strings.HasPrefix m p with
    | true =>
      obtain ⟨tail, ht⟩ := hp.mp hh
      simp only [if_true, true_iff]
      exact ⟨tail, ht.symm⟩
    | false =>
      simp only [Bool.false_eq_true, if_false, reduceCtorEq, false_iff]
      rintro ⟨tail, ht⟩
      have := hp.mpr ⟨tail, ht.symm⟩
      rw [hh] at this
      exact absurd this (by decide)
  refine ⟨h1, ?_, ?_⟩
  · intro m
    rw [← h1 m]
    unfold parseCommand
    cases strings.HasPrefix m p <;> simp
  · intro q run fuel w script cmd m quit h
    rw [(StartChat_run_mem p q run fuel w script cmd m quit h).1]
    exact h1 m

/-- C9. The reader's prompt is the primary prompt `user` between reads: `readLine`
never changes the prompt; `readMultiLine` leaves it equal to `user` on every exit,
and it does exit on a terminator line and on any read error after any number of
content lines; `NewChat` sets it to `user`; so, the command handlers not changing
it, it is `user` at the top of every iteration of the loop. -/
theorem prompt_is_user (p q : GoString)
    (run : command → GoString → World σ → Bool × World σ)
    (hrun : ∀ cmd m w, (run cmd m w).2.chat.reader.prompt = w.chat.reader.prompt
      ∧ (run cmd m w).2.chat.prompt = w.chat.prompt) :
    (∀ (w : World σ) (script : List ReadResult),
        (readLine q w script).world.chat.reader.prompt = w.chat.reader.prompt)
    ∧ (∀ (w w' : World σ) (script rest : List ReadResult) (v : GoString × Bool),
        readMultiLine q w script = .ret v w' rest →
          w'.chat.reader.prompt = w.chat.prompt.user ∧ w'.chat.prompt = w.chat.prompt)
    ∧ (∀ (w : World σ) (lines : List GoString) (x : ReadResult) (rest : List ReadResult),
        (∀ l ∈ lines, strings.HasSuffix l w.chat.opts.Terminator = false) →
        (x.err = none → strings.HasSuffix x.input w.chat.opts.Terminator = true) →
          ∃ (v : GoString × Bool) (w' : World σ),
            readMultiLine q w (lines.map ReadResult.line ++ x :: rest) = .ret v w' rest
            ∧ w'.chat.reader.prompt = w.chat.prompt.user)
    ∧ (∀ (reader : Instance) (newPrompt : GoString → prompt) (user : GoString) (model : σ)
        (opts : ChatOpts),
        ∃ c : Chat σ, NewChat (.ok reader) newPrompt user model opts = .ok c
          ∧ c.prompt = newPrompt user ∧ c.reader.prompt = c.prompt.user)
    ∧ (∀ (fuel : Nat) (w : World σ) (script : List ReadResult),
        w.chat.reader.prompt = w.chat.prompt.user →
        (StartChat p q run fuel w script).status = Status.running →
          (StartChat p q run fuel w script).world.chat.reader.prompt
            = (StartChat p q run fuel w script).world.chat.prompt.user) := by
  refine ⟨fun w script => (readLine_prompt q w script).1, ?_, ?_, ?_, ?_⟩
  · intro w w' script rest v h
    exact loop_prompt q _ script _ _ _ _ _ h
  · intro w lines x rest hlines hx
    rcases ReadResult.line_or_fail x with ⟨l, rfl⟩ | ⟨typed, e, rfl⟩
    · have hl : strings.HasSuffix l w.chat.opts.Terminator = true := hx rfl
      rw [readMultiLine, loop_lines q _ lines hlines, loop_terminator q _ _ _ l rest hl]
      refine ⟨_, _, rfl, ?_⟩
      cases lines <;> rfl
    · rw [readMultiLine, loop_lines q _ lines hlines, loop_fail]
      refine ⟨_, _, rfl, ?_⟩
      rw [handleReadError_chat]
      cases lines <;> rfl
  · intro reader newPrompt user model opts
    unfold NewChat
    cases opts.Multiline <;> exact ⟨_, rfl, rfl, rfl⟩
  · intro fuel w script hw hs
    exact StartChat_prompt p q run hrun fuel w script hw (by rw [hs]; decide)

/-- C9 at concrete inputs: the example handler leaves the world as it is; after a
completed entry and an entry that an interrupt aborted the loop is at its top with
the primary prompt set. -/
theorem prompt_is_user_witness :
    (StartChat "!".toList "!q".toList exampleRun 2 multiLineWorld
        [ReadResult.line "a".toList, ReadResult.line "b;;".toList,
          ReadResult.line "c".toList, interruptAtEmpty]).status = Status.running
    ∧ (StartChat "!".toList "!q".toList exampleRun 2 multiLineWorld
        [ReadResult.line "a".toList, ReadResult.line "b;;".toList,
          ReadResult.line "c".toList, interruptAtEmpty]).world.chat.reader.prompt
        = "me> ".toList :=
  ⟨by decide,
    (prompt_is_user "!".toList "!q".toList exampleRun (fun _ _ _ => ⟨rfl, rfl⟩)).2.2.2.2 2
      multiLineWorld _ rfl (by decide)⟩

/-- C10. During a multi-line entry begun with the primary prompt set, the first
read displays `user` and every later read `userNext`: after the content lines
`lines` the reader waits for the next line with the prompt `userNext` when at
least one line has been accepted and `user` when none has, and the prompts the
reads of the entry have displayed, the read that follows `lines` included, are
`user` and then `userNext` every time. -/
theorem readMultiLine_prompts (q : GoString) (w : World σ)
    (hstart : w.chat.reader.prompt = w.chat.prompt.user) (lines : List GoString)
    (hlines : ∀ l ∈ lines, strings.HasSuffix l w.chat.opts.Terminator = false) :
    ∃ w' : World σ,
      readMultiLine q w (lines.map ReadResult.line) = .blocked w'
      ∧ w'.chat.prompt = w.chat.prompt
      ∧ w'.chat.reader.prompt
          = (if lines = [] then w.chat.prompt.user else w.chat.prompt.userNext)
      ∧ w'.chat.reader.shown
          = w.chat.reader.shown ++
            (match lines with
              | [] => []
              | _ :: later =>
                w.chat.prompt.user :: List.replicate later.length w.chat.prompt.userNext)
      ∧ (∀ x : ReadResult,
          (readMultiLine q w (lines.map ReadResult.line ++ [x])).world.chat.reader.shown
            = w.chat.reader.shown ++
              (w.chat.prompt.user :: List.replicate lines.length w.chat.prompt.userNext)) := by
  refine ⟨w.midEntry lines.length, ?_, ?_, ?_, ?_, ?_⟩
  · have h := loop_lines q w.chat.opts.Terminator lines hlines w []
    rw [List.append_nil] at h
    rw [readMultiLine, h]
    rfl
  · cases lines <;> rfl
  · cases lines with
    | nil => simpa using hstart
    | cons l ls => simp [World.midEntry, World.SetPrompt, Instance.SetPrompt]
  · cases lines with
    | nil => simp [World.midEntry]
    | cons l ls =>
      simp [World.midEntry, World.SetPrompt, Instance.SetPrompt, World.displayed, hstart]
  · intro x
    rw [readMultiLine, loop_lines q _ lines hlines, loop_one_shown, midEntry_next_shown, hstart]

/-- C10 at the scenario of the specification: terminator `;;`, lines `line1`,
`line2;;`; after `line1` the continuation prompt is set, and it is the prompt
displayed by the read that returns `line2;;`. -/
theorem readMultiLine_prompts_witness :
    ∃ w' : World Unit,
      readMultiLine "!q".toList multiLineWorld (["line1".toList].map ReadResult.line)
        = .blocked w'
      ∧ w'.chat.reader.prompt = "... ".toList
      ∧ (readMultiLine "!q".toList multiLineWorld
          (["line1".toList].map ReadResult.line
            ++ [ReadResult.line "line2;;".toList])).world.chat.reader.shown
          = ["me> ".toList, "... ".toList] := by
  obtain ⟨w', h1, _, h3, _, h5⟩ :=
    readMultiLine_prompts "!q".toList multiLineWorld rfl ["line1".toList] (by decide)
  exact ⟨w', h1, h3, h5 (ReadResult.line "line2;;".toList)⟩

/-- C11. Blank input is never dispatched: a line that trims to empty in single-line
mode, and a completed entry whose text trims to empty in multi-line mode (the
terminator alone, or blank lines and then the terminator), make `read` return
`("", false)`; the iteration runs no command, the session is as before, and the
loop goes on with the next read. -/
theorem blank_input_not_dispatched (p q : GoString)
    (run : command → GoString → World σ → Bool × World σ) (fuel : Nat) (w : World σ)
    (rest : List ReadResult) :
    (∀ l : GoString, w.chat.opts.Multiline = false → strings.TrimSpace l = [] →
      ∃ w' : World σ,
        read q w (ReadResult.line l :: rest) = .ret ([], false) w' rest
        ∧ w'.chat.model = w.chat.model
        ∧ StartChat p q run (fuel + 1) w (ReadResult.line l :: rest)
            = (StartChat p q run fuel w' rest).after [.read [] false])
    ∧ (∀ (lines : List GoString) (last : GoString), w.chat.opts.Multiline = true →
        (∀ l ∈ lines, strings.HasSuffix l w.chat.opts.Terminator = false) →
        strings.HasSuffix last w.chat.opts.Terminator = true →
        strings.TrimSpace ((lines.map (fun l => l ++ ['\n'])).flatten
          ++ strings.TrimSuffix last w.chat.opts.Terminator) = [] →
        ∃ w' : World σ,
          read q w (lines.map ReadResult.line ++ ReadResult.line last :: rest)
            = .ret ([], false) w' rest
          ∧ w'.chat.model = w.chat.model
          ∧ StartChat p q run (fuel + 1) w
              (lines.map ReadResult.line ++ ReadResult.line last :: rest)
              = (StartChat p q run fuel w' rest).after [.read [] false])
    ∧ (∀ lines : List GoString, w.chat.opts.Multiline = true →
        (∀ l ∈ lines, strings.HasSuffix l w.chat.opts.Terminator = false
          ∧ ∀ c ∈ l, unicode.IsSpace c = true) →
        ∃ w' : World σ,
          read q w (lines.map ReadResult.line
              ++ ReadResult.line w.chat.opts.Terminator :: rest)
            = .ret ([], false) w' rest
          ∧ w'.chat.model = w.chat.model
          ∧ StartChat p q run (fuel + 1) w
              (lines.map ReadResult.line ++ ReadResult.line w.chat.opts.Terminator :: rest)
              = (StartChat p q run fuel w' rest).after [.read [] false]) := by
  have multi : ∀ (lines : List GoString) (last : GoString), w.chat.opts.Multiline = true →
      (∀ l ∈ lines, strings.HasSuffix l w.chat.opts.Terminator = false) →
      strings.HasSuffix last w.chat.opts.Terminator = true →
      strings.TrimSpace (contentText lines
        ++ strings.TrimSuffix last w.chat.opts.Terminator) = [] →
      ∃ w' : World σ,
        read q w (lines.map ReadResult.line ++ ReadResult.line last :: rest)
          = .ret ([], false) w' rest
        ∧ w'.chat.model = w.chat.model
        ∧ StartChat p q run (fuel + 1) w
            (lines.map ReadResult.line ++ ReadResult.line last :: rest)
            = (StartChat p q run fuel w' rest).after [.read [] false] := by
    intro lines last hm hlines hlast hblank
    have hr : read q w (lines.map ReadResult.line ++ ReadResult.line last :: rest)
        = .ret ([], false) (w.afterEntry lines.length) rest := by
      rw [read_multi q w _ hm, readMultiLine_terminated q w lines last rest hlines hlast,
        validateInput_blank _ hblank]
    exact ⟨_, hr, (afterEntry_frame w lines.length).1, StartChat_skip p q run fuel w _ _ rest [] hr⟩
  refine ⟨?_, multi, ?_⟩
  · intro l hm hblank
    have hr : read q w (ReadResult.line l :: rest)
        = .ret ([], false) (w.displayed [w.chat.reader.prompt]) rest := by
      rw [read_single q w _ hm, readLine_line, validateInput_blank l hblank]
    exact ⟨_, hr, rfl, StartChat_skip p q run fuel w _ _ rest [] hr⟩
  · intro lines hm hlines
    refine multi lines w.chat.opts.Terminator hm (fun l hl => (hlines l hl).1)
      ((HasSuffix_iff _ _).mpr (List.suffix_refl _)) ?_
    rw [TrimSuffix_self, List.append_nil, TrimSpace_eq_nil_iff]
    exact contentText_blank lines (fun l hl => (hlines l hl).2)

/-- C11 at concrete inputs: in multi-line mode a blank line and an empty line
followed by the terminator `;;` alone; the loop skips the entry and is at its top
again, nothing dispatched. -/
theorem blank_input_not_dispatched_witness :
    ∃ w' : World Unit,
      read "!q".toList multiLineWorld
          ([" \t".toList, []].map ReadResult.line ++ ReadResult.line ";;".toList :: [])
        = .ret ([], false) w' []
      ∧ w'.chat.model = ()
      ∧ StartChat "!".toList "!q".toList exampleRun 1 multiLineWorld
          ([" \t".toList, []].map ReadResult.line ++ ReadResult.line ";;".toList :: [])
          = (StartChat "!".toList "!q".toList exampleRun 0 w' []).after [.read [] false] :=
  (blank_input_not_dispatched "!".toList "!q".toList exampleRun 0 multiLineWorld []).2.2
    [" \t".toList, []] rfl (by decide)

/-- C12. What a read prints: a read that ends on an error other than the
interrupt, after the content lines `lines` in multi-line mode and at once in
single-line mode, appends exactly the cli prompt, the text of the error and a
newline to standard output and returns `("", false)`; a read that ends on an
interrupt, with or without pending input, or succeeds, prints nothing. -/
theorem read_stdout (q : GoString) (w : World σ) (lines : List GoString) (x : ReadResult)
    (rest : List ReadResult)
    (hlines : ∀ l ∈ lines, strings.HasSuffix l w.chat.opts.Terminator = false)
    (hmode : w.chat.opts.Multiline = false → lines = [])
    (hx : w.chat.opts.Multiline = true → x.err = none →
      strings.HasSuffix x.input w.chat.opts.Terminator = true) :
    ∃ (v : GoString × Bool) (w' : World σ),
      read q w (lines.map ReadResult.line ++ x :: rest) = .ret v w' rest
      ∧ w'.stdout = w.stdout ++
          (match x.err with
            | some e => if e.isInterrupt then [] else w.chat.prompt.cli ++ e.text ++ ['\n']
            | none => [])
      ∧ (∀ e, x.err = some e → e.isInterrupt = false → v = ([], false)) := by
  cases hm : w.chat.opts.Multiline with
  | false =>
    rw [hmode hm, List.map_nil, List.nil_append, read_single q w _ hm]
    rcases ReadResult.line_or_fail x with ⟨l, rfl⟩ | ⟨typed, e, rfl⟩
    · rw [readLine_line]
      refine ⟨_, _, rfl, ?_, ?_⟩
      · simp [ReadResult.line, World.displayed]
      · intro e he
        simp [ReadResult.line] at he
    · rw [readLine_fail]
      cases he : e.isInterrupt with
      | true =>
        rw [handleReadError_interrupt q _ _ e he]
        refine ⟨_, _, rfl, ?_, ?_⟩
        · simp [ReadResult.fail, World.displayed, he]
        · intro e' he' hi
          simp only [ReadResult.fail, Option.some.injEq] at he'
          rw [← he', he] at hi
          exact absurd hi (by decide)
      | false =>
        rw [handleReadError_other q _ _ e he]
        refine ⟨_, _, rfl, ?_, ?_⟩
        · simp [ReadResult.fail, World.displayed, World.Printf, he]
        · intro _ _ _
          rfl
  | true =>
    rw [read_multi q w _ hm]
    obtain ⟨_, hp, _, hout, _, _⟩ := afterEntry_frame w lines.length
    rcases ReadResult.line_or_fail x with ⟨l, rfl⟩ | ⟨typed, e, rfl⟩
    · rw [readMultiLine_terminated q w lines l rest hlines (hx hm rfl)]
      refine ⟨_, _, rfl, ?_, ?_⟩
      · simp [ReadResult.line, hout]
      · intro e he
        simp [ReadResult.line] at he
    · rw [readMultiLine_failed q w lines typed e rest hlines]
      cases he : e.isInterrupt with
      | true =>
        rw [handleReadError_interrupt q _ _ e he]
        refine ⟨_, _, rfl, ?_, ?_⟩
        · simp [ReadResult.fail, hout, he]
        · intro e' he' hi
          simp only [ReadResult.fail, Option.some.injEq] at he'
          rw [← he', he] at hi
          exact absurd hi (by decide)
      | false =>
        rw [handleReadError_other q _ _ e he]
        refine ⟨_, _, rfl, ?_, ?_⟩
        · simp [ReadResult.fail, World.Printf, hout, hp, he]
        · intro _ _ _
          rfl

/-- C12 at concrete inputs: in multi-line mode, after one content line, the read
fails at the end of the input and prints `cli> EOF` and a newline. -/
theorem read_stdout_witness :
    ∃ (v : GoString × Bool) (w' : World Unit),
      read "!q".toList multiLineWorld
          (["a".toList].map ReadResult.line ++ endOfInput :: []) = .ret v w' []
      ∧ w'.stdout = "cli> EOF\n".toList
      ∧ v = ([], false) := by
  obtain ⟨v, w', h1, h2, h3⟩ := read_stdout "!q".toList multiLineWorld ["a".toList]
    endOfInput [] (by decide) (by decide) (by decide)
  exact ⟨v, w', h1, h2, h3 ⟨false, "EOF".toList⟩ rfl rfl⟩

/-- C13. An interrupt with pending input discards the input: when the script
begins with an aborted entry (in single-line mode an interrupt with something
typed, in multi-line mode content lines or something typed and then an interrupt)
the read returns `("", false)`, the primary prompt is set again, the next entry is
read as it is read without the aborted one, and the loop does on the whole script,
after that one skipped iteration, what it does on the rest alone: the same
commands with the same messages, the same status, the same world, displayed
prompts apart (the handlers not depending on them). -/
theorem StartChat_aborted_entry (p q : GoString)
    (run : command → GoString → World σ → Bool × World σ) (hrun : ignoresDisplay run)
    (w : World σ) (hw : w.chat.reader.prompt = w.chat.prompt.user)
    (lines : List GoString) (typed : GoString) (e : GoError) (rest : List ReadResult)
    (fuel : Nat) (he : e.isInterrupt = true)
    (hlines : ∀ l ∈ lines, strings.HasSuffix l w.chat.opts.Terminator = false)
    (hmode : w.chat.opts.Multiline = false → lines = [])
    (hpending : lines ≠ [] ∨ typed ≠ []) :
    ∃ w' : World σ,
      read q w (lines.map ReadResult.line ++ ReadResult.fail typed e :: rest)
        = .ret ([], false) w' rest
      ∧ w'.chat.reader.prompt = w'.chat.prompt.user
      ∧ w'.erase = w.erase
      ∧ (read q w' rest).erase = (read q w rest).erase
      ∧ StartChat p q run (fuel + 1) w
          (lines.map ReadResult.line ++ ReadResult.fail typed e :: rest)
          = (StartChat p q run fuel w' rest).after [.read [] false]
      ∧ (StartChat p q run (fuel + 1) w
          (lines.map ReadResult.line ++ ReadResult.fail typed e :: rest)).erase
          = ((StartChat p q run fuel w rest).after [.read [] false]).erase
      ∧ dispatched (StartChat p q run (fuel + 1) w
          (lines.map ReadResult.line ++ ReadResult.fail typed e :: rest)).log
          = dispatched (StartChat p q run fuel w rest).log := by
  obtain ⟨w', hr, hwe⟩ := read_aborted q w hw lines typed e rest he hlines hmode hpending
  have hstep := StartChat_skip p q run fuel w w' _ rest [] hr
  have hsim := StartChat_congr p q run hrun fuel w' w rest hwe
  have hp : w'.chat.reader.prompt = w'.chat.prompt.user := by
    have h1 : w'.chat.reader.prompt = w.chat.reader.prompt :=
      congrArg (fun x => x.chat.reader.prompt) hwe
    have h2 : w'.chat.prompt = w.chat.prompt := congrArg (fun x => x.chat.prompt) hwe
    rw [h1, h2, hw]
  refine ⟨w', hr, hp, hwe, read_congr q w' w rest hwe, hstep, ?_, ?_⟩
  · rw [hstep, erase_after, erase_after, hsim]
  · have hl : (StartChat p q run fuel w' rest).log = (StartChat p q run fuel w rest).log :=
      congrArg (fun r => r.log) hsim
    rw [hstep]
    show dispatched ([Event.read [] false] ++ (StartChat p q run fuel w' rest).log) = _
    rw [hl]
    rfl

/-- C13 at concrete inputs: in multi-line mode `draft` is accepted and the entry is
interrupted; the entry `hi;;` that follows is dispatched as it is without the
aborted one. -/
theorem StartChat_aborted_entry_witness :
    dispatched (StartChat "!".toList "!q".toList exampleRun 3 multiLineWorld
        (["draft".toList].map ReadResult.line
          ++ ReadResult.fail [] ⟨true, "Interrupt".toList⟩
            :: [ReadResult.line "hi;;".toList])).log
      = dispatched (StartChat "!".toList "!q".toList exampleRun 2 multiLineWorld
        [ReadResult.line "hi;;".toList]).log
    ∧ dispatched (StartChat "!".toList "!q".toList exampleRun 2 multiLineWorld
        [ReadResult.line "hi;;".toList]).log = [(command.geminiCommand, "hi".toList)] := by
  obtain ⟨_, _, _, _, _, _, _, h⟩ := StartChat_aborted_entry "!".toList "!q".toList exampleRun
    (fun _ _ _ _ h => ⟨rfl, h⟩) multiLineWorld rfl ["draft".toList] []
    ⟨true, "Interrupt".toList⟩ [ReadResult.line "hi;;".toList] 2 rfl (by decide)
    (by decide) (Or.inl (by decide))
  exact ⟨h, by decide⟩

/-- C14. The history switch: for a reader created with history enabled, after a
successful `NewChat` history is disabled exactly when `opts.Multiline` is true, and
`readLine`, `readMultiLine` and `handleReadError` leave the switch as it is. -/
theorem history_flag (q : GoString) (reader : Instance)
    (hfresh : reader.historyDisabled = false) (newPrompt : GoString → prompt)
    (user : GoString) (model : σ) (opts : ChatOpts) :
    (∃ c : Chat σ, NewChat (.ok reader) newPrompt user model opts = .ok c
        ∧ (c.reader.historyDisabled = true ↔ opts.Multiline = true))
    ∧ (∀ (w : World σ) (script : List ReadResult),
        (readLine q w script).world.chat.reader.historyDisabled
          = w.chat.reader.historyDisabled)
    ∧ (∀ (w : World σ) (script : List ReadResult),
        (readMultiLine q w script).world.chat.reader.historyDisabled
          = w.chat.reader.historyDisabled)
    ∧ (∀ (w : World σ) (n : Nat) (e : GoError),
        (handleReadError q w n e).2.chat.reader.historyDisabled
          = w.chat.reader.historyDisabled) := by
  refine ⟨?_, readLine_history q, fun w script => loop_history q _ script [] w, ?_⟩
  · unfold NewChat
    cases hm : opts.Multiline with
    | false =>
      refine ⟨_, rfl, ?_⟩
      simp [Instance.SetPrompt, hfresh]
    | true =>
      refine ⟨_, rfl, ?_⟩
      simp [Instance.SetPrompt, Instance.HistoryDisable]
  · intro w n e
    rw [handleReadError_chat]

/-- C14 at concrete inputs: a fresh reader, options with `Multiline` set. -/
theorem history_flag_witness :
    ∃ c : Chat Unit,
      NewChat (.ok ⟨[], false, []⟩) (fun _ => examplePrompt) "me".toList ()
        multiLineWorld.chat.opts = .ok c
      ∧ (c.reader.historyDisabled = true ↔ multiLineWorld.chat.opts.Multiline = true) :=
  (history_flag "!q".toList ⟨[], false, []⟩ rfl (fun _ => examplePrompt) "me".toList ()
    multiLineWorld.chat.opts).1

/-- C15. With the empty terminator every line ends with the terminator, and
`readMultiLine`, started with the primary prompt set, does what `readLine` does:
the same result and the same world for every script, one reader outcome consumed
for each call, the prompt `user` displayed and left set. -/
theorem readMultiLine_empty_terminator (q : GoString) (w : World σ)
    (ht : w.chat.opts.Terminator = []) (hw : w.chat.reader.prompt = w.chat.prompt.user) :
    (∀ l : GoString, strings.HasSuffix l w.chat.opts.Terminator = true)
    ∧ (∀ script : List ReadResult, readMultiLine q w script = readLine q w script)
    ∧ (∀ (x : ReadResult) (rest : List ReadResult),
        ∃ (v : GoString × Bool) (w' : World σ),
          readMultiLine q w (x :: rest) = .ret v w' rest
          ∧ w'.chat.reader.prompt = w.chat.prompt.user
          ∧ w'.chat.reader.shown = w.chat.reader.shown ++ [w.chat.prompt.user]
          ∧ w'.stdout = (readLine q w (x :: rest)).world.stdout) := by
  have heq : ∀ script : List ReadResult, readMultiLine q w script = readLine q w script := by
    intro script
    have hs : (w.displayed [w.chat.reader.prompt]).SetPrompt w.chat.prompt.user
        = w.displayed [w.chat.reader.prompt] := SetPrompt_same _ _ hw
    rw [readMultiLine, ht]
    cases script with
    | nil => rfl
    | cons x script =>
      rcases ReadResult.line_or_fail x with ⟨l, rfl⟩ | ⟨typed, e, rfl⟩
      · rw [loop_terminator q [] [] w l script (HasSuffix_nil l), hs, TrimSuffix_nil,
          List.nil_append, readLine_line]
      · rw [loop_fail, hs, readLine_fail]
        have h0 : len ([] : GoString) + len typed = len typed := by simp [len]
        rw [h0]
  refine ⟨fun l => by rw [ht]; exact HasSuffix_nil l, heq, ?_⟩
  intro x rest
  rw [heq]
  rcases ReadResult.line_or_fail x with ⟨l, rfl⟩ | ⟨typed, e, rfl⟩
  · rw [readLine_line]
    refine ⟨_, _, rfl, hw, ?_, rfl⟩
    simp [World.displayed, hw]
  · rw [readLine_fail]
    refine ⟨_, _, rfl, ?_, ?_, rfl⟩
    · rw [handleReadError_chat]
      exact hw
    · rw [handleReadError_chat]
      simp [World.displayed, hw]

/-- C15 at concrete inputs: multi-line mode with the empty terminator reads the
padded line ` hi ` as single-line mode does, and leaves the interrupt behind it in
the script. -/
theorem readMultiLine_empty_terminator_witness :
    readMultiLine "!q".toList emptyTerminatorWorld
        [ReadResult.line " hi ".toList, interruptAtEmpty]
      = readLine "!q".toList emptyTerminatorWorld
        [ReadResult.line " hi ".toList, interruptAtEmpty]
    ∧ readLine "!q".toList emptyTerminatorWorld
        [ReadResult.line " hi ".toList, interruptAtEmpty]
      = .ret ("hi".toList, true) (emptyTerminatorWorld.displayed ["me> ".toList])
          [interruptAtEmpty] :=
  ⟨(readMultiLine_empty_terminator "!q".toList emptyTerminatorWorld rfl rfl).2.1
    [ReadResult.line " hi ".toList, interruptAtEmpty], by decide⟩

/-- C16. Whenever `read` returns with `usable = false` the text it returns is
empty, in both input modes; so it is on each of the unusable paths: a validated
input that is blank, and the error policy on an interrupt with pending text or on
another error. -/
theorem read_unusable_empty (q : GoString) (w w' : World σ) (script rest : List ReadResult)
    (m : GoString) (h : read q w script = .ret (m, false) w' rest) :
    m = []
    ∧ (∀ s : GoString, (validateInput s).2 = false → (validateInput s).1 = [])
    ∧ (∀ (n : Nat) (e : GoError) (w0 : World σ),
        (handleReadError q w0 n e).1.2 = false → (handleReadError q w0 n e).1.1 = []) := by
  have hv : ∀ s : GoString, (validateInput s).2 = false → (validateInput s).1 = [] := by
    intro s hs
    simpa [validateInput] using hs
  refine ⟨?_, hv, ?_⟩
  · rcases read_value q w w' script rest _ h with h1 | h1 | ⟨s, h1⟩
    · injection h1 with _ h2
      exact absurd h2 (by decide)
    · injection h1
    · have h2 := hv s
      rw [← h1] at h2
      exact h2 rfl
  · intro n e w0 hf
    cases he : e.isInterrupt with
    | true =>
      rw [handleReadError_interrupt q w0 n e he] at hf ⊢
      by_cases hn : n = 0
      · simp [hn] at hf
      · simp [hn]
    | false =>
      rw [handleReadError_other q w0 n e he]

/-- C16 at concrete inputs: an interrupt with `abc` typed is unusable and
returns the empty text. -/
theorem read_unusable_empty_witness :
    ∃ (m : GoString) (w' : World Unit),
      read "!q".toList singleLineWorld
          [ReadResult.fail "abc".toList ⟨true, "Interrupt".toList⟩]
        = .ret (m, false) w' []
      ∧ m = [] :=
  ⟨[], singleLineWorld.displayed ["me> ".toList], by decide,
    (read_unusable_empty "!q".toList singleLineWorld
      (singleLineWorld.displayed ["me> ".toList])
      [ReadResult.fail "abc".toList ⟨true, "Interrupt".toList⟩] [] [] (by decide)).1⟩

end claims

end cli
